import Mathlib

/-
Shallow embedding of the pennysniff multiplayer session coordinator:
the GameManager class (server/gameManager.js, latest revision with the
cooldown system removed) and the socket.io intent handlers
(server/index.js).  JS Maps become association lists with Map.set
semantics (replace in place, else append); Date.now() timestamps are
threaded as explicit natural-number millisecond arguments; Math.random
spawn/penny positions are abstracted as oracles carried in the
configuration; a JS value that may be undefined is an Option, and an
expression that would throw a TypeError returns Except.error.
-/

namespace PennySniff

/-- A 3D position, as sent by clients and stored on players and pennies. -/
structure Pos where
  x : ℚ
  y : ℚ
  z : ℚ
deriving DecidableEq, Repr

/-- A yaw/pitch rotation. -/
structure Rot where
  x : ℚ
  y : ℚ
deriving DecidableEq, Repr

/-- One lobby map value: walletAddress plus joinTime (Date.now()). -/
structure LobbyEntry where
  walletAddress : String
  joinTime : Nat
deriving DecidableEq, Repr

/-- One players map value.  position and rotation are Options because the
handler stores the client-reported fields verbatim, and a client payload may
leave them undefined. -/
structure Player where
  walletAddress : String
  position : Option Pos
  rotation : Option Rot
  score : Nat
deriving DecidableEq, Repr

/-- One pennies map value: spawn position and the collected flag. -/
structure Penny where
  position : Pos
  collected : Bool
deriving DecidableEq, Repr

/-- The gamePhase field: 'lobby', 'playing' or 'results'. -/
inductive Phase where
  | lobby
  | playing
  | results
deriving DecidableEq, Repr

/-- Association-list embedding of a JS Map with String keys: get returns the
first binding for the key. -/
def mapGet {β : Type} (m : List (String × β)) (k : String) : Option β :=
  match m with
  | [] => none
  | (k', v') :: rest => if k' = k then some v' else mapGet rest k

/-- Map.set: replace the first binding in place if the key is present
(JS Maps never hold a duplicate key), else append at the end, preserving
insertion order. -/
def mapSet {β : Type} (m : List (String × β)) (k : String) (v : β) :
    List (String × β) :=
  match m with
  | [] => [(k, v)]
  | (k', v') :: rest => if k' = k then (k, v) :: rest else (k', v') :: mapSet rest k v

/-- Map.delete: drop every binding for the key. -/
def mapDelete {β : Type} (m : List (String × β)) (k : String) :
    List (String × β) :=
  m.filter (fun q => q.1 ≠ k)

/-- Map.size (the embedding keeps one binding per key). -/
def mapSize {β : Type} (m : List (String × β)) : Nat := m.length

/-- Configuration read in the GameManager constructor.  The two position
fields are oracles standing for Math.random in getRandomSpawnPosition and
generatePennies; no claim depends on the sampled values. -/
structure Config where
  maxPlayers : Nat := 25
  lobbyTimerSeconds : Nat := 180
  gameDurationSeconds : Nat := 120
  totalPennies : Nat := 150
  spawnAt : String → Pos
  pennyPosAt : Nat → Pos

/-- The mutable GameManager state: lobby, players, spectators and pennies
maps, the phase, whether each interval timer is live, and the two start
timestamps (milliseconds). -/
structure GState where
  lobby : List (String × LobbyEntry)
  players : List (String × Player)
  spectators : List String
  pennies : List (String × Penny)
  gamePhase : Phase
  lobbyTimerOn : Bool
  gameTimerOn : Bool
  lobbyStartTime : Option Nat
  gameStartTime : Option Nat
deriving DecidableEq

/-- The state of a freshly constructed GameManager. -/
def initState : GState :=
  { lobby := [], players := [], spectators := [], pennies := [],
    gamePhase := Phase.lobby, lobbyTimerOn := false, gameTimerOn := false,
    lobbyStartTime := none, gameStartTime := none }

/-- Destination of an emitted socket.io event: io.emit, socket.broadcast.emit,
or socket.emit back to the requesting connection. -/
inductive Target where
  | all
  | others
  | toSender
deriving DecidableEq, Repr

/-- An emitted event, recorded by name and destination. -/
structure Msg where
  event : String
  target : Target
deriving DecidableEq, Repr

/-- Result value of addPlayerToLobby. -/
structure JoinResult where
  success : Bool
  reason : Option String
deriving DecidableEq, Repr

/-- Result value of collectPenny. -/
structure CollectResult where
  success : Bool
  playerScore : Option Nat
deriving DecidableEq, Repr

/-- The walletAddress guard of addPlayerToLobby:
"!walletAddress || walletAddress.length < 32".  An absent (undefined)
wallet is falsy; the empty string is falsy and also shorter than 32. -/
def walletInvalid : Option String → Bool
  | none => true
  | some s => decide (s.length < 32)

/-- startLobbyTimer: records lobbyStartTime = Date.now() and arms the
per-second interval (the ticks themselves are the lobbyTick function). -/
def startLobbyTimer (now : Nat) (st : GState) : GState :=
  { st with lobbyStartTime := some now, lobbyTimerOn := true }

/-- generatePennies: clears the pennies map and inserts totalPennies fresh
coins with ids penny_0, penny_1, ... all uncollected. -/
def generatePennies (cfg : Config) (st : GState) : GState :=
  { st with pennies := ((List.range cfg.totalPennies).map
      (fun i => ("penny_" ++ toString i, { position := cfg.pennyPosAt i, collected := false }))) }

/-- startGame: cancels the lobby timer, flips the phase to playing, stamps
gameStartTime, promotes every lobby entry to an ActivePlayer with score 0 and
a random spawn (the players map is not cleared first), clears the lobby,
regenerates the pennies, emits game_start and arms the game timer. -/
def startGame (cfg : Config) (now : Nat) (st : GState) : GState × List Msg :=
  let st1 := { st with
    lobbyTimerOn := false, gamePhase := Phase.playing,
    gameStartTime := some now }
  let st2 := { st1 with
    players := (st1.lobby.foldl
      (fun ps q => mapSet ps q.1
        { walletAddress := q.2.walletAddress,
          position := some (cfg.spawnAt q.1),
          rotation := some { x := 0, y := 0 },
          score := 0 }) st1.players),
    lobby := [] }
  let st3 := generatePennies cfg st2
  ({ st3 with gameTimerOn := true }, [{ event := "game_start", target := Target.all }])

/-- addPlayerToLobby: validates the wallet, rejects a wallet already in the
lobby, a full lobby, and a game in progress (in that order), then inserts the
entry, starts the lobby timer on the first entrant, and starts the game at
once when the lobby is now full. -/
def addPlayerToLobby (cfg : Config) (now : Nat) (sid : String)
    (w : Option String) (st : GState) : JoinResult × GState × List Msg :=
  if walletInvalid w then
    ({ success := false, reason := some "Invalid wallet address" }, st, [])
  else
    let wa := w.getD ""
    if st.lobby.any (fun q => q.2.walletAddress = wa) then
      ({ success := false, reason := some "Wallet already in lobby" }, st, [])
    else if cfg.maxPlayers ≤ mapSize st.lobby then
      ({ success := false, reason := some "Lobby is full. You can spectate!" }, st, [])
    else if st.gamePhase = Phase.playing then
      ({ success := false, reason := some "Game in progress. You can spectate!" }, st, [])
    else
      let st1 := { st with lobby := mapSet st.lobby sid { walletAddress := wa, joinTime := now } }
      let st2 := if mapSize st1.lobby = 1 then startLobbyTimer now st1 else st1
      if cfg.maxPlayers ≤ mapSize st2.lobby then
        let r := startGame cfg now st2
        ({ success := true, reason := none }, r.1, r.2)
      else
        ({ success := true, reason := none }, st2, [])

/-- One firing of the startLobbyTimer interval callback: emits lobby_timer,
and on expiry either starts the game (at least two entrants) or restarts the
countdown and emits the informational lobby_message. -/
def lobbyTick (cfg : Config) (now : Nat) (st : GState) : GState × List Msg :=
  match st.lobbyStartTime with
  | none => (st, [{ event := "lobby_timer", target := Target.all }])
  | some start =>
    let expired := cfg.lobbyTimerSeconds * 1000 ≤ now - start
    if expired ∧ 2 ≤ mapSize st.lobby then
      let r := startGame cfg now st
      (r.1, { event := "lobby_timer", target := Target.all } :: r.2)
    else if expired then
      ({ st with lobbyStartTime := some now },
       [{ event := "lobby_timer", target := Target.all },
        { event := "lobby_message", target := Target.all }])
    else
      (st, [{ event := "lobby_timer", target := Target.all }])

/-- collectPenny: fails with no state change when the connection has no
ActivePlayer, the penny id is unknown (or undefined), or the penny is
already collected; otherwise flips the flag and increments the score by 1. -/
def collectPenny (sid : String) (pennyId : Option String) (st : GState) :
    CollectResult × GState :=
  match mapGet st.players sid with
  | none => ({ success := false, playerScore := none }, st)
  | some player =>
    match pennyId with
    | none => ({ success := false, playerScore := none }, st)
    | some pid =>
      match mapGet st.pennies pid with
      | none => ({ success := false, playerScore := none }, st)
      | some penny =>
        if penny.collected then
          ({ success := false, playerScore := none }, st)
        else
          ({ success := true, playerScore := some (player.score + 1) },
           { st with
             pennies := (mapSet st.pennies pid { penny with collected := true }),
             players := (mapSet st.players sid { player with score := player.score + 1 }) })

/-- A JS runtime exception surfaced by a handler. -/
inductive JsError where
  | typeError
deriving DecidableEq, Repr

/-- Payload of a player_move intent, as far as the server reads it. -/
structure MoveData where
  position : Option Pos
  rotation : Option Rot
deriving DecidableEq, Repr

/-- updatePlayerPosition: no-ops when the connection has no ActivePlayer;
otherwise stores data.position and data.rotation verbatim — reading those
fields throws a TypeError when the payload itself is undefined. -/
def updatePlayerPosition (sid : String) (data : Option MoveData) (st : GState) :
    Except JsError GState :=
  match mapGet st.players sid with
  | none => Except.ok st
  | some player =>
    match data with
    | none => Except.error JsError.typeError
    | some d => Except.ok
        { st with players := (mapSet st.players sid
            { player with position := d.position, rotation := d.rotation }) }

/-- One entry of the rankings array built in endGame. -/
structure RankEntry where
  id : String
  walletAddress : String
  score : Nat
deriving DecidableEq, Repr

/-- The comparator (a, b) => b.score - a.score: descending score. -/
def scoreDesc (a b : RankEntry) : Prop := b.score ≤ a.score

instance : DecidableRel scoreDesc := fun a b => inferInstanceAs (Decidable (b.score ≤ a.score))

instance : IsTotal RankEntry scoreDesc :=
  ⟨fun a b => le_total b.score a.score⟩

instance : IsTrans RankEntry scoreDesc :=
  ⟨fun _ _ _ h1 h2 => le_trans h2 h1⟩

/-- The rankings computed in endGame: the players map projected to
(id, walletAddress, score) and sorted by score descending with a stable
sort, matching the stable Array.prototype.sort of the source. -/
def rankings (st : GState) : List RankEntry :=
  List.insertionSort scoreDesc
    (st.players.map (fun q =>
      { id := q.1, walletAddress := q.2.walletAddress, score := q.2.score }))

/-- rankings.slice(0, Math.min(3, rankings.length)). -/
def winners (st : GState) : List RankEntry :=
  (rankings st).take (min 3 (rankings st).length)

/-- winners.reduce((sum, w) => sum + w.score, 0). -/
def top3TotalCoins (st : GState) : Nat :=
  ((winners st).map (fun w => w.score)).sum

/-- Math.round for the non-negative ratios appearing here: round half up. -/
def jsRound (q : ℚ) : ℤ := ⌊q + 1 / 2⌋

/-- One entry of the winnersWithRewards array of endGame. -/
structure WinnerEntry where
  id : String
  walletAddress : String
  score : Nat
  place : Nat
  rewardPercent : ℤ
deriving DecidableEq, Repr

/-- winners.map((w, i) => ...) of endGame, carrying the index i for the place
field: the reward percent is Math.round((w.score / top3TotalCoins) * 100)
when the top-3 total is positive, else Math.round(100 / winners.length). -/
def attachRewards (T N : Nat) : Nat → List RankEntry → List WinnerEntry
  | _, [] => []
  | i, w :: ws =>
    { id := w.id, walletAddress := w.walletAddress, score := w.score,
      place := i + 1,
      rewardPercent :=
        if 0 < T then jsRound (((w.score : ℚ) / (T : ℚ)) * 100)
        else jsRound (100 / (N : ℚ)) } :: attachRewards T N (i + 1) ws

/-- The winnersWithRewards array emitted in the game_end broadcast. -/
def winnersWithRewards (st : GState) : List WinnerEntry :=
  attachRewards (top3TotalCoins st) (winners st).length 0 (winners st)

/-- The unrounded per-winner percentages recomputed inside distributeRewards
and handed to the Solana payout service. -/
def distributeRewardPercents (ws : List RankEntry) (T : Nat) : List ℚ :=
  ws.map (fun w =>
    if 0 < T then ((w.score : ℚ) / (T : ℚ)) * 100 else 100 / (ws.length : ℚ))

/-- endGame's effect on the coordinator state: cancel the game timer and
flip the phase to results; the rankings, winners and reward percentages are
the pure functions above, and the players, pennies, lobby and spectators
maps are untouched (the reset only happens 10 seconds later). -/
def endGame (st : GState) : GState × List Msg :=
  ({ st with gameTimerOn := false, gamePhase := Phase.results },
   [{ event := "game_end", target := Target.all }])

/-- One firing of the game timer interval: emits game_timer and calls
endGame when the wall-clock round duration has elapsed. -/
def gameTick (cfg : Config) (now : Nat) (st : GState) : GState × List Msg :=
  match st.gameStartTime with
  | none => (st, [{ event := "game_timer", target := Target.all }])
  | some start =>
    if cfg.gameDurationSeconds * 1000 ≤ now - start then
      let r := endGame st
      (r.1, { event := "game_timer", target := Target.all } :: r.2)
    else
      (st, [{ event := "game_timer", target := Target.all }])

/-- resetGame: clears players, pennies and spectators, reverts the phase to
lobby and broadcasts game_reset.  The lobby map and the timer fields are not
touched. -/
def resetGame (st : GState) : GState × List Msg :=
  ({ st with
     players := [], pennies := [], gamePhase := Phase.lobby,
     spectators := [] },
   [{ event := "game_reset", target := Target.all }])

/-- addSpectator: spectators.add(socketId). -/
def addSpectator (sid : String) (st : GState) : GState :=
  { st with spectators := if sid ∈ st.spectators then st.spectators else st.spectators ++ [sid] }

/-- removePlayer: deletes the connection from the lobby, players and
spectators collections. -/
def removePlayer (sid : String) (st : GState) : GState :=
  { st with
    lobby := mapDelete st.lobby sid,
    players := mapDelete st.players sid,
    spectators := st.spectators.filter (fun x => x ≠ sid) }

/-- Payload of a join_lobby intent whose walletAddress field is well typed:
absent or a string.  This specialization is what every claim about the
admission logic itself needs; JoinPayloadJs below carries an arbitrary JSON
value in the field, which is required to analyse the handler's crash
behaviour, because a truthy non-string value passes the length guard of
addPlayerToLobby and later makes the lobby-state serialization throw. -/
structure JoinPayload where
  walletAddress : Option String
deriving DecidableEq, Repr

/-- Payload of a collect_penny intent, with a possibly absent pennyId
field. -/
structure CollectPayload where
  pennyId : Option String
deriving DecidableEq, Repr

/-- The join_lobby socket handler on well-typed wallet fields: destructuring
walletAddress out of an undefined payload throws; otherwise the GameManager
result is relayed as a lobby_joined reply to the sender, plus a lobby_update
broadcast on success.  The success replies serialize the lobby snapshot
(getLobbyState), which maps every lobby wallet through String.prototype
slice calls; for the string-typed wallets of this specialization that
serialization cannot throw and is elided — joinLobbyHandlerJs below models
it on raw JSON wallet values, where it can. -/
def joinLobbyHandler (cfg : Config) (now : Nat) (sid : String)
    (data : Option JoinPayload) (st : GState) :
    Except JsError (GState × List Msg) :=
  match data with
  | none => Except.error JsError.typeError
  | some d =>
    let r := addPlayerToLobby cfg now sid d.walletAddress st
    if r.1.success then
      Except.ok (r.2.1, r.2.2 ++
        [{ event := "lobby_joined", target := Target.toSender },
         { event := "lobby_update", target := Target.all }])
    else
      Except.ok (r.2.1, r.2.2 ++ [{ event := "lobby_joined", target := Target.toSender }])

/-- The join_spectator socket handler: always succeeds and replies with the
current game state snapshot. -/
def joinSpectatorHandler (sid : String) (st : GState) :
    Except JsError (GState × List Msg) :=
  Except.ok (addSpectator sid st,
    [{ event := "spectator_joined", target := Target.toSender }])

/-- The player_move socket handler: updates the position (which may throw on
an undefined payload when the sender is an active player) and then broadcasts
player_moved to every other connection, with no membership check of its
own. -/
def playerMoveHandler (sid : String) (data : Option MoveData) (st : GState) :
    Except JsError (GState × List Msg) :=
  match updatePlayerPosition sid data st with
  | Except.error e => Except.error e
  | Except.ok st' =>
    Except.ok (st', [{ event := "player_moved", target := Target.others }])

/-- The collect_penny socket handler: reading data.pennyId throws on an
undefined payload; on a successful collection it broadcasts penny_collected
and scores_update to everyone, and on failure it emits nothing. -/
def collectPennyHandler (sid : String) (data : Option CollectPayload)
    (st : GState) : Except JsError (GState × List Msg) :=
  match data with
  | none => Except.error JsError.typeError
  | some d =>
    let r := collectPenny sid d.pennyId st
    if r.1.success then
      Except.ok (r.2,
        [{ event := "penny_collected", target := Target.all },
         { event := "scores_update", target := Target.all }])
    else
      Except.ok (r.2, [])

/-- The disconnect handler: removePlayer plus a lobby_update and player_left
broadcast. -/
def disconnectHandler (sid : String) (st : GState) : GState × List Msg :=
  (removePlayer sid st,
   [{ event := "lobby_update", target := Target.all },
    { event := "player_left", target := Target.all }])

/-- One event processed by the single-threaded coordinator: a client intent
handler completing normally, a timer interval firing (only while armed), the
scheduled post-results reset, or a disconnect. -/
inductive Step (cfg : Config) : GState → GState → Prop where
  | onJoin {now sid d st st' msgs} :
      joinLobbyHandler cfg now sid d st = Except.ok (st', msgs) → Step cfg st st'
  | onSpectate {sid st st' msgs} :
      joinSpectatorHandler sid st = Except.ok (st', msgs) → Step cfg st st'
  | onMove {sid d st st' msgs} :
      playerMoveHandler sid d st = Except.ok (st', msgs) → Step cfg st st'
  | onCollect {sid d st st' msgs} :
      collectPennyHandler sid d st = Except.ok (st', msgs) → Step cfg st st'
  | onLobbyTick {now st st' msgs} :
      st.lobbyTimerOn = true → lobbyTick cfg now st = (st', msgs) → Step cfg st st'
  | onGameTick {now st st' msgs} :
      st.gameTimerOn = true → gameTick cfg now st = (st', msgs) → Step cfg st st'
  | onReset {st st' msgs} :
      resetGame st = (st', msgs) → Step cfg st st'
  | onDisconnect {sid st st' msgs} :
      disconnectHandler sid st = (st', msgs) → Step cfg st st'

/-- States reachable from a freshly constructed GameManager. -/
inductive Reachable (cfg : Config) : GState → Prop where
  | start : Reachable cfg initState
  | next {st st'} : Reachable cfg st → Step cfg st st' → Reachable cfg st'

/-- Whether a coin id currently maps to a collected penny. -/
def coinCollectedB (st : GState) (pid : String) : Bool :=
  match mapGet st.pennies pid with
  | none => false
  | some p => p.collected

/-- Run a sequence of collectPenny calls (connection id, pennyId payload) in
order, threading the state. -/
def runCollects (calls : List (String × Option String)) (st : GState) : GState :=
  calls.foldl (fun s c => (collectPenny c.1 c.2 s).2) st

/-- Number of calls in the sequence that target the given coin id and return
success. -/
def successCount (pid : String) : List (String × Option String) → GState → Nat
  | [], _ => 0
  | c :: cs, st =>
    (if c.2 = some pid ∧ (collectPenny c.1 c.2 st).1.success = true then 1 else 0)
      + successCount pid cs (collectPenny c.1 c.2 st).2

/-- Sum of all active players' scores. -/
def scoreSum (st : GState) : Nat :=
  (st.players.map (fun q => q.2.score)).sum

/-- Number of uncollected coins, as computed by getGameState's
penniesRemaining field. -/
def penniesRemaining (st : GState) : Nat :=
  (st.pennies.filter (fun q => !q.2.collected)).length

/-- Coin/score conservation: scores plus uncollected coins account for the
whole configured coin set. -/
def Conserved (cfg : Config) (st : GState) : Prop :=
  scoreSum st + penniesRemaining st = cfg.totalPennies

instance (cfg : Config) (st : GState) : Decidable (Conserved cfg st) :=
  inferInstanceAs (Decidable (scoreSum st + penniesRemaining st = cfg.totalPennies))

/-- Inductive invariant of the coordinator: in the lobby phase the players
map is empty, and the lobby never holds more than maxPlayers entries. -/
def StateInv (cfg : Config) (st : GState) : Prop :=
  (st.gamePhase = Phase.lobby → st.players = []) ∧ mapSize st.lobby ≤ cfg.maxPlayers

/-- Whether some lobby entry already carries this wallet value (the
duplicate-wallet guard compares by value, not by connection id). -/
def lobbyHasWallet (st : GState) (wa : String) : Bool :=
  st.lobby.any (fun q => q.2.walletAddress = wa)

/-- The exact rejection condition of addPlayerToLobby, for the
characterization theorem: invalid wallet, duplicate wallet, full lobby, or a
game in progress (the phase check tests 'playing' only). -/
def rejectCond (cfg : Config) (w : Option String) (st : GState) : Bool :=
  walletInvalid w || lobbyHasWallet st (w.getD "") ||
    decide (cfg.maxPlayers ≤ mapSize st.lobby) ||
    decide (st.gamePhase = Phase.playing)

/-- A fixed position used by the concrete evaluation oracles. -/
def demoPos : Pos := { x := 0, y := 0, z := 0 }

/-- Concrete two-player configuration with a single coin, used to evaluate
whole round traces. -/
def cexCfg : Config :=
  { maxPlayers := 2, lobbyTimerSeconds := 180, gameDurationSeconds := 120,
    totalPennies := 1, spawnAt := fun _ => demoPos, pennyPosAt := fun _ => demoPos }

/-- Configuration whose lobby holds a single player, used for the full-lobby
rejection analysis. -/
def cfgMax1 : Config :=
  { maxPlayers := 1, spawnAt := fun _ => demoPos, pennyPosAt := fun _ => demoPos }

/-- A syntactically valid 32-character wallet address. -/
def wA : String := "AAAAAAAAAAAAAAAAAAAAAAAAAAAAAAAA"

/-- A second valid wallet address. -/
def wB : String := "BBBBBBBBBBBBBBBBBBBBBBBBBBBBBBBB"

/-- A third valid wallet address. -/
def wC : String := "CCCCCCCCCCCCCCCCCCCCCCCCCCCCCCCC"

/-- A fourth valid wallet address. -/
def wD : String := "DDDDDDDDDDDDDDDDDDDDDDDDDDDDDDDD"

/-- Trace state: connection sA has joined the lobby at t=0ms. -/
def stJoinA : GState := (addPlayerToLobby cexCfg 0 "sA" (some wA) initState).2.1

/-- Trace state: sB joined at t=1000ms, filling the two-seat lobby, so
startGame fired and the round is in the playing phase. -/
def stJoinB : GState := (addPlayerToLobby cexCfg 1000 "sB" (some wB) stJoinA).2.1

/-- Trace state: sA has collected the single penny during the round. -/
def stMid : GState := (collectPenny "sA" (some "penny_0") stJoinB).2

/-- Trace state: the game timer expired at t=122000ms with the penny still
uncollected, so endGame ran and the phase is results. -/
def stResultsClean : GState := (gameTick cexCfg 122000 stJoinB).1

/-- Trace state: the game timer expired after sA's collection. -/
def stResultsMid : GState := (gameTick cexCfg 122000 stMid).1

/-- Trace state: a fresh connection sC joined during the results phase (the
phase guard only tests 'playing', so the join is accepted). -/
def stJoinC : GState := (addPlayerToLobby cexCfg 125000 "sC" (some wC) stResultsMid).2.1

/-- The state on which the second startGame runs: sD's join has been inserted
into the lobby, filling it while the previous round's players and scores are
still present (the results-phase reset is still pending). -/
def c7PreStart : GState :=
  { stJoinC with lobby := mapSet stJoinC.lobby "sD" { walletAddress := wD, joinTime := 126000 } }

/-- Trace state: sD's join filled the lobby during the results phase, so
startGame ran again on top of the surviving players map. -/
def stSecond : GState := (addPlayerToLobby cexCfg 126000 "sD" (some wD) stJoinC).2.1

/-- A state whose sole coin is already collected, for evaluating repeated
collection attempts. -/
def c1State : GState :=
  { initState with
    gamePhase := Phase.playing,
    players := [("sA", { walletAddress := wA, position := none, rotation := none, score := 1 })],
    pennies := [("penny_0", { position := demoPos, collected := true })] }

/-- A move payload with both fields present. -/
def c3MoveData : MoveData := { position := some demoPos, rotation := some { x := 0, y := 0 } }

/-- A lobby already holding its single configured seat, for the rejection
precedence analysis of a further join attempt. -/
def c6Full : GState :=
  { initState with lobby := [("s1", { walletAddress := wA, joinTime := 0 })] }

/-- An active player with the given score and no reported pose. -/
def mkPlayer (w : String) (n : Nat) : Player :=
  { walletAddress := w, position := none, rotation := none, score := n }

/-- Four players with scores 4, 1, 1 and 0: the rounded top-3 shares are
67, 17 and 17, whose total is 101. -/
def c5StPos : GState :=
  { initState with
    gamePhase := Phase.playing,
    players := [("a", mkPlayer wA 1), ("b", mkPlayer wB 1), ("c", mkPlayer wC 4), ("d", mkPlayer wD 0)] }

/-- Three players who all finished on zero coins. -/
def c5StZero : GState :=
  { initState with
    gamePhase := Phase.playing,
    players := [("a", mkPlayer wA 0), ("b", mkPlayer wB 0), ("c", mkPlayer wC 0)] }

/-- A JSON value that may arrive in a payload field.  Strict equality on
primitives is value equality; a plain object compares by reference identity,
modelled by a numeric reference tag; undef stands both for an absent field
and for null, which behave alike in every read the server performs on the
wallet value. -/
inductive JsVal where
  | undef
  | str (s : String)
  | num (n : Int)
  | boolean (b : Bool)
  | obj (ref : Nat)
deriving DecidableEq, Repr

/-- JS falsiness of a wallet value, as tested by !walletAddress: undefined,
null, the empty string, 0 and false are falsy; every other value passes. -/
def jsFalsy : JsVal → Bool
  | JsVal.undef => true
  | JsVal.str s => decide (s.length = 0)
  | JsVal.num n => decide (n = 0)
  | JsVal.boolean b => !b
  | JsVal.obj _ => false

/-- The walletAddress.length < 32 test on an arbitrary value: only a string
has a length property here; on every other value the property read yields
undefined, and undefined < 32 is false. -/
def jsLengthLt32 : JsVal → Bool
  | JsVal.str s => decide (s.length < 32)
  | _ => false

/-- The full wallet guard of addPlayerToLobby on an arbitrary JSON value:
"!walletAddress || walletAddress.length < 32". -/
def walletInvalidJs (w : JsVal) : Bool := jsFalsy w || jsLengthLt32 w

/-- Whether the value is a string, i.e. supports the .slice calls performed
by the getLobbyState and getScores serializers. -/
def jsIsString : JsVal → Bool
  | JsVal.str _ => true
  | _ => false

/-- Lobby map value with the raw JSON wallet value the code actually
stores. -/
structure LobbyEntryJs where
  walletAddress : JsVal
  joinTime : Nat
deriving DecidableEq, Repr

/-- Players map value with the raw JSON wallet value copied from the lobby
entry at game start. -/
structure PlayerJs where
  walletAddress : JsVal
  position : Option Pos
  rotation : Option Rot
  score : Nat
deriving DecidableEq, Repr

/-- The GameManager state over raw JSON wallet values.  GState above is its
restriction to string-typed wallets, sufficient for every claim about the
admission, collection and scoring logic; this variant is needed for the
crash analysis, because the code never re-checks the type of a stored
wallet. -/
structure GStateJs where
  lobby : List (String × LobbyEntryJs)
  players : List (String × PlayerJs)
  spectators : List String
  pennies : List (String × Penny)
  gamePhase : Phase
  lobbyTimerOn : Bool
  gameTimerOn : Bool
  lobbyStartTime : Option Nat
  gameStartTime : Option Nat
deriving DecidableEq

/-- The freshly constructed GameManager state, JSON-value level. -/
def initStateJs : GStateJs :=
  { lobby := [], players := [], spectators := [], pennies := [],
    gamePhase := Phase.lobby, lobbyTimerOn := false, gameTimerOn := false,
    lobbyStartTime := none, gameStartTime := none }

/-- startLobbyTimer, JSON-value level. -/
def startLobbyTimerJs (now : Nat) (st : GStateJs) : GStateJs :=
  { st with lobbyStartTime := some now, lobbyTimerOn := true }

/-- generatePennies, JSON-value level (the pennies carry no wallet). -/
def generatePenniesJs (cfg : Config) (st : GStateJs) : GStateJs :=
  { st with pennies := ((List.range cfg.totalPennies).map
      (fun i => ("penny_" ++ toString i, { position := cfg.pennyPosAt i, collected := false }))) }

/-- startGame, JSON-value level: identical to startGame, promoting each lobby
entry with its stored raw wallet value. -/
def startGameJs (cfg : Config) (now : Nat) (st : GStateJs) : GStateJs × List Msg :=
  let st1 := { st with
    lobbyTimerOn := false, gamePhase := Phase.playing,
    gameStartTime := some now }
  let st2 := { st1 with
    players := (st1.lobby.foldl
      (fun ps q => mapSet ps q.1
        { walletAddress := q.2.walletAddress,
          position := some (cfg.spawnAt q.1),
          rotation := some { x := 0, y := 0 },
          score := 0 }) st1.players),
    lobby := [] }
  let st3 := generatePenniesJs cfg st2
  ({ st3 with gameTimerOn := true }, [{ event := "game_start", target := Target.all }])

/-- addPlayerToLobby on a raw JSON wallet value: the same four guards in the
same order, with the wallet guard given by JS truthiness and the length
property read, and the duplicate check by strict equality on the stored
values. -/
def addPlayerToLobbyJs (cfg : Config) (now : Nat) (sid : String)
    (w : JsVal) (st : GStateJs) : JoinResult × GStateJs × List Msg :=
  if walletInvalidJs w then
    ({ success := false, reason := some "Invalid wallet address" }, st, [])
  else if st.lobby.any (fun q => q.2.walletAddress = w) then
    ({ success := false, reason := some "Wallet already in lobby" }, st, [])
  else if cfg.maxPlayers ≤ mapSize st.lobby then
    ({ success := false, reason := some "Lobby is full. You can spectate!" }, st, [])
  else if st.gamePhase = Phase.playing then
    ({ success := false, reason := some "Game in progress. You can spectate!" }, st, [])
  else
    let st1 := { st with lobby := mapSet st.lobby sid { walletAddress := w, joinTime := now } }
    let st2 := if mapSize st1.lobby = 1 then startLobbyTimerJs now st1 else st1
    if cfg.maxPlayers ≤ mapSize st2.lobby then
      let r := startGameJs cfg now st2
      ({ success := true, reason := none }, r.1, r.2)
    else
      ({ success := true, reason := none }, st2, [])

/-- collectPenny, JSON-value level: identical to collectPenny. -/
def collectPennyJs (sid : String) (pennyId : Option String) (st : GStateJs) :
    CollectResult × GStateJs :=
  match mapGet st.players sid with
  | none => ({ success := false, playerScore := none }, st)
  | some player =>
    match pennyId with
    | none => ({ success := false, playerScore := none }, st)
    | some pid =>
      match mapGet st.pennies pid with
      | none => ({ success := false, playerScore := none }, st)
      | some penny =>
        if penny.collected then
          ({ success := false, playerScore := none }, st)
        else
          ({ success := true, playerScore := some (player.score + 1) },
           { st with
             pennies := (mapSet st.pennies pid { penny with collected := true }),
             players := (mapSet st.players sid { player with score := player.score + 1 }) })

/-- updatePlayerPosition, JSON-value level. -/
def updatePlayerPositionJs (sid : String) (data : Option MoveData) (st : GStateJs) :
    Except JsError GStateJs :=
  match mapGet st.players sid with
  | none => Except.ok st
  | some player =>
    match data with
    | none => Except.error JsError.typeError
    | some d => Except.ok
        { st with players := (mapSet st.players sid
            { player with position := d.position, rotation := d.rotation }) }

/-- addSpectator, JSON-value level. -/
def addSpectatorJs (sid : String) (st : GStateJs) : GStateJs :=
  { st with spectators := if sid ∈ st.spectators then st.spectators else st.spectators ++ [sid] }

/-- One masked lobby wallet of getLobbyState's players array:
p.walletAddress.slice(0, 6) + '...' + p.walletAddress.slice(-4).  The slice
calls throw a TypeError on any non-string wallet value. -/
def maskLobbyWallet : JsVal → Except JsError String
  | JsVal.str s => Except.ok (s.take 6 ++ "..." ++ s.drop (s.length - 4))
  | _ => Except.error JsError.typeError

/-- The players array of the getLobbyState snapshot: the map over the lobby
throws at the first non-string wallet.  The remaining snapshot fields
(playerCount, maxPlayers, timeRemaining, gamePhase) are numeric or enum reads
and never throw. -/
def serializeLobby : List (String × LobbyEntryJs) → Except JsError (List (String × String))
  | [] => Except.ok []
  | q :: rest =>
    match maskLobbyWallet q.2.walletAddress with
    | Except.error e => Except.error e
    | Except.ok m =>
      match serializeLobby rest with
      | Except.error e => Except.error e
      | Except.ok ms => Except.ok ((q.1, m) :: ms)

/-- getLobbyState's throwing part, JSON-value level. -/
def getLobbyStateJs (st : GStateJs) : Except JsError (List (String × String)) :=
  serializeLobby st.lobby

/-- One entry of the getScores array. -/
structure ScoreEntry where
  id : String
  wallet : String
  score : Nat
deriving DecidableEq, Repr

/-- The descending-score comparator of getScores. -/
def scoreEntryDesc (a b : ScoreEntry) : Prop := b.score ≤ a.score

instance : DecidableRel scoreEntryDesc :=
  fun a b => inferInstanceAs (Decidable (b.score ≤ a.score))

/-- The map step of getScores: { id, wallet: p.walletAddress.slice(0, 6) +
'...', score }; the slice call throws on any non-string wallet. -/
def serializeScores : List (String × PlayerJs) → Except JsError (List ScoreEntry)
  | [] => Except.ok []
  | q :: rest =>
    match q.2.walletAddress with
    | JsVal.str s =>
      match serializeScores rest with
      | Except.error e => Except.error e
      | Except.ok ms =>
        Except.ok ({ id := q.1, wallet := s.take 6 ++ "...", score := q.2.score } :: ms)
    | _ => Except.error JsError.typeError

/-- getScores, JSON-value level: map every player (throwing at the first
non-string wallet) and sort the result by score descending. -/
def getScoresJs (st : GStateJs) : Except JsError (List ScoreEntry) :=
  Except.map (List.insertionSort scoreEntryDesc) (serializeScores st.players)

/-- Whether every lobby wallet is a string, so the lobby snapshot
serializes. -/
def lobbyWalletsOk (st : GStateJs) : Bool :=
  st.lobby.all (fun q => jsIsString q.2.walletAddress)

/-- Whether every active player's wallet is a string, so the scores snapshot
serializes. -/
def playerWalletsOk (st : GStateJs) : Bool :=
  st.players.all (fun q => jsIsString q.2.walletAddress)

/-- Payload of a join_lobby intent with an arbitrary JSON walletAddress
value; JsVal.undef is an absent field. -/
structure JoinPayloadJs where
  walletAddress : JsVal
deriving DecidableEq, Repr

/-- Outcome of one handler invocation at the JSON-value level: the state
after the mutations that committed, the events emitted before any throw, and
the exception, if one escaped the handler. -/
structure JsOutcome where
  state : GStateJs
  msgs : List Msg
  thrown : Option JsError
deriving DecidableEq

/-- The join_lobby handler on raw JSON payloads: destructuring an undefined
payload throws; a rejected join replies lobby_joined to the sender only; an
accepted join first mutates the state (including a possible game start,
whose game_start broadcast is already out), then evaluates getLobbyState for
the lobby_joined reply — if that serialization throws, the exception escapes
with the mutation committed and no reply sent; otherwise the reply and the
lobby_update broadcast (the same serialization on the same state) go out. -/
def joinLobbyHandlerJs (cfg : Config) (now : Nat) (sid : String)
    (data : Option JoinPayloadJs) (st : GStateJs) : JsOutcome :=
  match data with
  | none => { state := st, msgs := [], thrown := some JsError.typeError }
  | some d =>
    let r := addPlayerToLobbyJs cfg now sid d.walletAddress st
    if r.1.success then
      match getLobbyStateJs r.2.1 with
      | Except.error e => { state := r.2.1, msgs := r.2.2, thrown := some e }
      | Except.ok _ =>
        { state := r.2.1,
          msgs := r.2.2 ++
            [{ event := "lobby_joined", target := Target.toSender },
             { event := "lobby_update", target := Target.all }],
          thrown := none }
    else
      { state := r.2.1,
        msgs := r.2.2 ++ [{ event := "lobby_joined", target := Target.toSender }],
        thrown := none }

/-- The join_spectator handler, JSON-value level: getGameState reads only
positions, scores and penny flags — never a wallet — so the handler never
throws. -/
def joinSpectatorHandlerJs (sid : String) (st : GStateJs) : JsOutcome :=
  { state := addSpectatorJs sid st,
    msgs := [{ event := "spectator_joined", target := Target.toSender }],
    thrown := none }

/-- The player_move handler, JSON-value level. -/
def playerMoveHandlerJs (sid : String) (data : Option MoveData) (st : GStateJs) :
    JsOutcome :=
  match updatePlayerPositionJs sid data st with
  | Except.error e => { state := st, msgs := [], thrown := some e }
  | Except.ok st' =>
    { state := st', msgs := [{ event := "player_moved", target := Target.others }],
      thrown := none }

/-- The collect_penny handler on raw JSON payloads: reading data.pennyId of
an undefined payload throws; a failed collect emits nothing; a successful
collect first broadcasts penny_collected and then evaluates getScores for
the scores_update broadcast — if that serialization throws, the exception
escapes after the collection has committed and been announced. -/
def collectPennyHandlerJs (sid : String) (data : Option CollectPayload)
    (st : GStateJs) : JsOutcome :=
  match data with
  | none => { state := st, msgs := [], thrown := some JsError.typeError }
  | some d =>
    let r := collectPennyJs sid d.pennyId st
    if r.1.success then
      match getScoresJs r.2 with
      | Except.error e =>
        { state := r.2, msgs := [{ event := "penny_collected", target := Target.all }],
          thrown := some e }
      | Except.ok _ =>
        { state := r.2,
          msgs := [{ event := "penny_collected", target := Target.all },
                   { event := "scores_update", target := Target.all }],
          thrown := none }
    else
      { state := r.2, msgs := [], thrown := none }

/-- A playing-phase JSON-level state with one string-walleted active
player. -/
def c9StateJs : GStateJs :=
  { initStateJs with
    gamePhase := Phase.playing,
    players := [("sA", { walletAddress := JsVal.str wA, position := none,
                         rotation := none, score := 1 })] }

/-- A playing-phase JSON-level state with one string-walleted player and one
uncollected penny. -/
def c9CollectStateJs : GStateJs :=
  { initStateJs with
    gamePhase := Phase.playing,
    players := [("sA", { walletAddress := JsVal.str wA, position := none,
                         rotation := none, score := 0 })],
    pennies := [("penny_0", { position := demoPos, collected := false })] }

section MapLemmas

variable {β : Type}

theorem mapGet_mapSet_self (m : List (String × β)) (k : String) (v : β) :
    mapGet (mapSet m k v) k = some v := by
  induction m with
  | nil => simp [mapSet, mapGet]
  | cons h t ih =>
    obtain ⟨k', v'⟩ := h
    by_cases hk : k' = k <;> simp [mapSet, mapGet, hk, ih]

theorem mapGet_mapSet_ne (m : List (String × β)) (k k' : String) (v : β)
    (h : k' ≠ k) : mapGet (mapSet m k v) k' = mapGet m k' := by
  have hne : ¬ k = k' := fun hkk => h (Eq.symm hkk)
  induction m with
  | nil => simp [mapSet, mapGet, hne]
  | cons hd t ih =>
    obtain ⟨k'', v''⟩ := hd
    by_cases hk : k'' = k
    · subst hk
      simp [mapSet, mapGet, hne]
    · simp [mapSet, mapGet, hk, ih]

theorem length_mapSet_le (m : List (String × β)) (k : String) (v : β) :
    (mapSet m k v).length ≤ m.length + 1 := by
  induction m with
  | nil => simp [mapSet]
  | cons hd t ih =>
    obtain ⟨k', v'⟩ := hd
    by_cases hk : k' = k <;> simp [mapSet, hk] <;> omega

theorem mapSet_of_get_none (m : List (String × β)) (k : String) (v : β)
    (h : mapGet m k = none) : mapSet m k v = m ++ [(k, v)] := by
  induction m with
  | nil => simp [mapSet]
  | cons hd t ih =>
    obtain ⟨k', v'⟩ := hd
    by_cases hk : k' = k
    · simp [mapGet, hk] at h
    · simp [mapGet, hk] at h
      simp [mapSet, hk, ih h]

theorem mapGet_append_none (a b : List (String × β)) (k : String)
    (h : mapGet a k = none) : mapGet (a ++ b) k = mapGet b k := by
  induction a with
  | nil => simp
  | cons hd t ih =>
    obtain ⟨k', v'⟩ := hd
    by_cases hk : k' = k
    · simp [mapGet, hk] at h
    · simp [mapGet, hk] at h ⊢
      exact ih h

theorem mem_mapSet {m : List (String × β)} {k : String} {v : β}
    {p : String × β} (h : p ∈ mapSet m k v) : p ∈ m ∨ p = (k, v) := by
  induction m with
  | nil => simp [mapSet] at h; simp [h]
  | cons hd t ih =>
    obtain ⟨k', v'⟩ := hd
    by_cases hk : k' = k
    · simp [mapSet, hk] at h
      rcases h with h | h
      · right; simp [h]
      · left; simp [h]
    · simp [mapSet, hk] at h
      rcases h with h | h
      · left; simp [h]
      · rcases ih h with h' | h'
        · left; simp [h']
        · right; exact h'

theorem sum_map_mapSet (f : β → Nat) (m : List (String × β)) (k : String)
    (v w : β) (h : mapGet m k = some w) :
    ((mapSet m k v).map (fun q => f q.2)).sum + f w
      = (m.map (fun q => f q.2)).sum + f v := by
  induction m with
  | nil => simp [mapGet] at h
  | cons hd t ih =>
    obtain ⟨k', v'⟩ := hd
    by_cases hk : k' = k
    · simp [mapGet, hk] at h
      subst h
      simp [mapSet, hk]
      omega
    · simp [mapGet, hk] at h
      have := ih h
      simp [mapSet, hk]
      omega

theorem count_filter_mapSet (pred : β → Bool) (m : List (String × β))
    (k : String) (v w : β) (h : mapGet m k = some w) :
    ((mapSet m k v).filter (fun q => pred q.2)).length + (if pred w then 1 else 0)
      = (m.filter (fun q => pred q.2)).length + (if pred v then 1 else 0) := by
  induction m with
  | nil => simp [mapGet] at h
  | cons hd t ih =>
    obtain ⟨k', v'⟩ := hd
    by_cases hk : k' = k
    · simp [mapGet, hk] at h
      subst h
      simp only [mapSet, hk, if_pos, List.filter_cons]
      by_cases hv : pred v <;> by_cases hv' : pred v' <;> simp [hv, hv'] <;> omega
    · simp [mapGet, hk] at h
      have hih := ih h
      simp only [mapSet, hk, if_neg, List.filter_cons]
      by_cases hv' : pred v' <;> simp [hv'] <;> omega

end MapLemmas

section CollectLemmas

theorem collectPenny_collected_eq {st : GState} {pid : String}
    (h : coinCollectedB st pid = true) (sid : String) :
    collectPenny sid (some pid) st = ({ success := false, playerScore := none }, st) := by
  unfold coinCollectedB at h
  unfold collectPenny
  cases hp : mapGet st.players sid with
  | none => rfl
  | some player =>
    cases hq : mapGet st.pennies pid with
    | none => simp [hq] at h
    | some penny =>
      simp [hq] at h
      simp [hq, h]

theorem collectPenny_cases (sid : String) (x : Option String) (st : GState) :
    ((collectPenny sid x st).1.success = false ∧ (collectPenny sid x st).2 = st)
    ∨ ∃ pid' penny player, x = some pid'
        ∧ mapGet st.players sid = some player
        ∧ mapGet st.pennies pid' = some penny
        ∧ penny.collected = false
        ∧ collectPenny sid x st =
            ({ success := true, playerScore := some (player.score + 1) },
             { st with
               pennies := (mapSet st.pennies pid' { penny with collected := true }),
               players := (mapSet st.players sid { player with score := player.score + 1 }) }) := by
  unfold collectPenny
  split
  · exact Or.inl ⟨rfl, rfl⟩
  next player hp =>
    split
    · exact Or.inl ⟨rfl, rfl⟩
    next pid' =>
      split
      · exact Or.inl ⟨rfl, rfl⟩
      next penny hq =>
        split
        · exact Or.inl ⟨rfl, rfl⟩
        next hc =>
          exact Or.inr ⟨pid', penny, player, rfl, hp, hq, by simpa using hc, rfl⟩

theorem coinCollectedB_mono {st : GState} {pid : String}
    (h : coinCollectedB st pid = true) (sid : String) (x : Option String) :
    coinCollectedB (collectPenny sid x st).2 pid = true := by
  rcases collectPenny_cases sid x st with ⟨_, he⟩ | ⟨pid', penny, player, hx, hp, hq, hc, he⟩
  · rw [he]; exact h
  · rw [he]
    unfold coinCollectedB at h ⊢
    by_cases hpid : pid' = pid
    · subst hpid
      simp [mapGet_mapSet_self]
    · simp only [mapGet_mapSet_ne _ _ _ _ (fun hx' => hpid (Eq.symm hx'))]
      exact h

theorem collectPenny_success_collected {st : GState} {pid sid : String}
    (h : (collectPenny sid (some pid) st).1.success = true) :
    coinCollectedB (collectPenny sid (some pid) st).2 pid = true := by
  rcases collectPenny_cases sid (some pid) st with ⟨hs, _⟩ | ⟨pid', penny, player, hx, hp, hq, hc, he⟩
  · rw [hs] at h; cases h
  · obtain rfl : pid' = pid := Option.some.inj hx.symm
    rw [he]
    unfold coinCollectedB
    simp [mapGet_mapSet_self]

theorem successCount_zero_of_collected {st : GState} {pid : String}
    (h : coinCollectedB st pid = true) (calls : List (String × Option String)) :
    successCount pid calls st = 0 := by
  induction calls generalizing st with
  | nil => rfl
  | cons c cs ih =>
    unfold successCount
    have hnext : coinCollectedB (collectPenny c.1 c.2 st).2 pid = true :=
      coinCollectedB_mono h c.1 c.2
    have hzero : (if c.2 = some pid ∧ (collectPenny c.1 c.2 st).1.success = true then 1 else 0) = 0 := by
      by_cases he : c.2 = some pid
      · rw [he]
        rw [collectPenny_collected_eq h c.1]
        simp
      · simp [he]
    rw [hzero, ih hnext]

theorem coinCollectedB_runCollects {st : GState} {pid : String}
    (h : coinCollectedB st pid = true) (calls : List (String × Option String)) :
    coinCollectedB (runCollects calls st) pid = true := by
  induction calls generalizing st with
  | nil => exact h
  | cons c cs ih =>
    unfold runCollects at ih ⊢
    simp only [List.foldl_cons]
    exact ih (coinCollectedB_mono h c.1 c.2)

end CollectLemmas

section OperationLemmas

theorem startGame_gamePhase (cfg : Config) (now : Nat) (st : GState) :
    (startGame cfg now st).1.gamePhase = Phase.playing := rfl

theorem startGame_lobby (cfg : Config) (now : Nat) (st : GState) :
    (startGame cfg now st).1.lobby = [] := rfl

theorem startGame_stateInv (cfg : Config) (now : Nat) (st : GState) :
    StateInv cfg (startGame cfg now st).1 := by
  constructor
  · intro h
    rw [startGame_gamePhase] at h
    cases h
  · rw [startGame_lobby]
    simp [mapSize]

theorem addPlayerToLobby_state_cases (cfg : Config) (now : Nat) (sid : String)
    (w : Option String) (st : GState) :
    (addPlayerToLobby cfg now sid w st).2.1 = st
    ∨ (∃ st2 : GState,
        (addPlayerToLobby cfg now sid w st).2.1 = st2
        ∧ st2.lobby = mapSet st.lobby sid { walletAddress := w.getD "", joinTime := now }
        ∧ st2.players = st.players ∧ st2.gamePhase = st.gamePhase
        ∧ st2.pennies = st.pennies ∧ st2.spectators = st.spectators
        ∧ ¬ cfg.maxPlayers ≤ mapSize st2.lobby)
    ∨ (∃ st2 : GState, (addPlayerToLobby cfg now sid w st).2.1 = (startGame cfg now st2).1) := by
  simp only [addPlayerToLobby]
  split_ifs
  · exact Or.inl rfl
  · exact Or.inl rfl
  · exact Or.inl rfl
  · exact Or.inl rfl
  · exact Or.inr (Or.inr ⟨_, rfl⟩)
  · exact Or.inr (Or.inl ⟨_, rfl, rfl, rfl, rfl, rfl, rfl, by assumption⟩)
  · exact Or.inr (Or.inr ⟨_, rfl⟩)
  · exact Or.inr (Or.inl ⟨_, rfl, rfl, rfl, rfl, rfl, rfl, by assumption⟩)

theorem addPlayerToLobby_stateInv (cfg : Config) (now : Nat) (sid : String)
    (w : Option String) (st : GState) (h : StateInv cfg st) :
    StateInv cfg (addPlayerToLobby cfg now sid w st).2.1 := by
  rcases addPlayerToLobby_state_cases cfg now sid w st with
    he | ⟨st2, he, _, hpl, hph, _, _, hguard⟩ | ⟨st2, he⟩
  · rw [he]; exact h
  · rw [he]
    refine ⟨fun hl => ?_, by omega⟩
    rw [hpl]
    exact h.1 (by rw [← hph]; exact hl)
  · rw [he]
    exact startGame_stateInv cfg now st2

theorem collectPenny_lobby_eq (sid : String) (x : Option String) (st : GState) :
    (collectPenny sid x st).2.lobby = st.lobby
    ∧ (collectPenny sid x st).2.gamePhase = st.gamePhase := by
  rcases collectPenny_cases sid x st with ⟨_, he⟩ | ⟨pid', penny, player, _, _, _, _, he⟩
  · rw [he]; exact ⟨rfl, rfl⟩
  · rw [he]; exact ⟨rfl, rfl⟩

theorem collectPenny_players_nil {st : GState} (h : st.players = [])
    (sid : String) (x : Option String) : (collectPenny sid x st).2 = st := by
  rcases collectPenny_cases sid x st with ⟨_, he⟩ | ⟨pid', penny, player, _, hp, _, _, _⟩
  · exact he
  · rw [h] at hp
    simp [mapGet] at hp

theorem updatePlayerPosition_ok_fields {sid : String} {d : Option MoveData}
    {st st' : GState} (h : updatePlayerPosition sid d st = Except.ok st') :
    st'.lobby = st.lobby ∧ st'.gamePhase = st.gamePhase
    ∧ st'.pennies = st.pennies ∧ st'.spectators = st.spectators
    ∧ (st.players = [] → st' = st) ∧ scoreSum st' = scoreSum st := by
  unfold updatePlayerPosition at h
  split at h
  · obtain rfl : st = st' := by simpa using h
    exact ⟨rfl, rfl, rfl, rfl, fun _ => rfl, rfl⟩
  next player hp =>
    split at h
    · cases h
    next dd =>
      obtain rfl : ({ st with players := (mapSet st.players sid
          { player with position := dd.position, rotation := dd.rotation }) } : GState) = st' := by
        simpa using h
      refine ⟨rfl, rfl, rfl, rfl, fun hnil => ?_, ?_⟩
      · rw [hnil] at hp
        simp [mapGet] at hp
      · unfold scoreSum
        have hsum := sum_map_mapSet (fun p => p.score) st.players sid
          { player with position := dd.position, rotation := dd.rotation } player hp
        simp only at hsum ⊢
        omega

theorem lobbyTick_state_cases (cfg : Config) (now : Nat) (st : GState) :
    (lobbyTick cfg now st).1 = st
    ∨ (lobbyTick cfg now st).1 = { st with lobbyStartTime := some now }
    ∨ (lobbyTick cfg now st).1 = (startGame cfg now st).1 := by
  simp only [lobbyTick]
  split
  · exact Or.inl rfl
  · split_ifs
    · exact Or.inr (Or.inr rfl)
    · exact Or.inr (Or.inl rfl)
    · exact Or.inl rfl

theorem gameTick_state_cases (cfg : Config) (now : Nat) (st : GState) :
    (gameTick cfg now st).1 = st ∨ (gameTick cfg now st).1 = (endGame st).1 := by
  simp only [gameTick]
  split
  · exact Or.inl rfl
  · split_ifs
    · exact Or.inr rfl
    · exact Or.inl rfl

theorem joinLobbyHandler_ok_state {cfg : Config} {now : Nat} {sid : String}
    {d : Option JoinPayload} {st st' : GState} {msgs : List Msg}
    (h : joinLobbyHandler cfg now sid d st = Except.ok (st', msgs)) :
    ∃ p, d = some p ∧ st' = (addPlayerToLobby cfg now sid p.walletAddress st).2.1 := by
  cases d with
  | none => simp [joinLobbyHandler] at h
  | some p =>
    refine ⟨p, rfl, ?_⟩
    simp only [joinLobbyHandler] at h
    split_ifs at h <;>
      (simp only [Except.ok.injEq, Prod.mk.injEq] at h; exact h.1.symm)

theorem joinSpectatorHandler_ok_state {sid : String} {st st' : GState}
    {msgs : List Msg} (h : joinSpectatorHandler sid st = Except.ok (st', msgs)) :
    st' = addSpectator sid st := by
  unfold joinSpectatorHandler at h
  simp only [Except.ok.injEq, Prod.mk.injEq] at h
  exact h.1.symm

theorem playerMoveHandler_ok_state {sid : String} {d : Option MoveData}
    {st st' : GState} {msgs : List Msg}
    (h : playerMoveHandler sid d st = Except.ok (st', msgs)) :
    updatePlayerPosition sid d st = Except.ok st' := by
  unfold playerMoveHandler at h
  split at h
  · cases h
  next st'' he =>
    simp only [Except.ok.injEq, Prod.mk.injEq] at h
    rw [he, h.1]

theorem collectPennyHandler_ok_state {sid : String} {d : Option CollectPayload}
    {st st' : GState} {msgs : List Msg}
    (h : collectPennyHandler sid d st = Except.ok (st', msgs)) :
    ∃ p, d = some p ∧ st' = (collectPenny sid p.pennyId st).2 := by
  cases d with
  | none => simp [collectPennyHandler] at h
  | some p =>
    refine ⟨p, rfl, ?_⟩
    simp only [collectPennyHandler] at h
    split_ifs at h <;>
      (simp only [Except.ok.injEq, Prod.mk.injEq] at h; exact h.1.symm)

theorem stateInv_init (cfg : Config) : StateInv cfg initState :=
  ⟨fun _ => rfl, by simp [initState, mapSize]⟩

theorem stateInv_step {cfg : Config} {st st' : GState} (h : StateInv cfg st)
    (hs : Step cfg st st') : StateInv cfg st' := by
  cases hs with
  | onJoin hj =>
    obtain ⟨p, _, hst⟩ := joinLobbyHandler_ok_state hj
    rw [hst]
    exact addPlayerToLobby_stateInv _ _ _ _ _ h
  | onSpectate hj =>
    rw [joinSpectatorHandler_ok_state hj]
    exact ⟨fun hl => h.1 hl, h.2⟩
  | onMove hm =>
    have hu := playerMoveHandler_ok_state hm
    obtain ⟨hlob, hph, _, _, hnil, _⟩ := updatePlayerPosition_ok_fields hu
    refine ⟨fun hl => ?_, by rw [hlob]; exact h.2⟩
    have hstl : st.gamePhase = Phase.lobby := by rw [← hph]; exact hl
    rw [hnil (h.1 hstl)]
    exact h.1 hstl
  | onCollect hc =>
    rename_i sid d msgs
    obtain ⟨p, _, hst⟩ := collectPennyHandler_ok_state hc
    refine ⟨fun hl => ?_, ?_⟩
    · rw [hst] at hl ⊢
      have hstl : st.gamePhase = Phase.lobby := by
        rw [← (collectPenny_lobby_eq sid p.pennyId st).2]
        exact hl
      rw [collectPenny_players_nil (h.1 hstl)]
      exact h.1 hstl
    · rw [hst, (collectPenny_lobby_eq sid p.pennyId st).1]
      exact h.2
  | onLobbyTick hon ht =>
    rename_i now msgs
    have hst : st' = (lobbyTick cfg now st).1 := by rw [ht]
    rcases lobbyTick_state_cases cfg now st with he | he | he
    · rw [hst, he]; exact h
    · rw [hst, he]
      exact ⟨fun hl => h.1 hl, h.2⟩
    · rw [hst, he]
      exact startGame_stateInv _ _ _
  | onGameTick hon ht =>
    rename_i now msgs
    have hst : st' = (gameTick cfg now st).1 := by rw [ht]
    rcases gameTick_state_cases cfg now st with he | he
    · rw [hst, he]; exact h
    · rw [hst, he]
      exact ⟨(fun hl => nomatch hl), h.2⟩
  | onReset hr =>
    have hst : st' = (resetGame st).1 := by rw [hr]
    rw [hst]
    exact ⟨fun _ => rfl, h.2⟩
  | onDisconnect hd =>
    rename_i sid msgs
    have hst : st' = (disconnectHandler sid st).1 := by rw [hd]
    rw [hst]
    refine ⟨fun hl => ?_, ?_⟩
    · have hnil : st.players = [] := h.1 hl
      simp [disconnectHandler, removePlayer, hnil, mapDelete]
    · calc (mapDelete st.lobby sid).length
          ≤ st.lobby.length := List.length_filter_le _ _
        _ ≤ cfg.maxPlayers := h.2

theorem reachable_stateInv {cfg : Config} {st : GState} (h : Reachable cfg st) :
    StateInv cfg st := by
  induction h with
  | start => exact stateInv_init cfg
  | next _ hs ih => exact stateInv_step ih hs

end OperationLemmas

section ReachLemmas

theorem reach_stJoinA : Reachable cexCfg stJoinA :=
  Reachable.next Reachable.start
    (@Step.onJoin cexCfg 0 "sA" (some { walletAddress := some wA }) initState stJoinA
      [{ event := "lobby_joined", target := Target.toSender },
       { event := "lobby_update", target := Target.all }] (by rfl))

theorem reach_stJoinB : Reachable cexCfg stJoinB :=
  Reachable.next reach_stJoinA
    (@Step.onJoin cexCfg 1000 "sB" (some { walletAddress := some wB }) stJoinA stJoinB
      [{ event := "game_start", target := Target.all },
       { event := "lobby_joined", target := Target.toSender },
       { event := "lobby_update", target := Target.all }] (by rfl))

theorem reach_stMid : Reachable cexCfg stMid :=
  Reachable.next reach_stJoinB
    (@Step.onCollect cexCfg "sA" (some { pennyId := some "penny_0" }) stJoinB stMid
      [{ event := "penny_collected", target := Target.all },
       { event := "scores_update", target := Target.all }] (by rfl))

theorem reach_stResultsClean : Reachable cexCfg stResultsClean :=
  Reachable.next reach_stJoinB
    (@Step.onGameTick cexCfg 122000 stJoinB stResultsClean
      [{ event := "game_timer", target := Target.all },
       { event := "game_end", target := Target.all }] (by rfl) (by rfl))

theorem reach_stResultsMid : Reachable cexCfg stResultsMid :=
  Reachable.next reach_stMid
    (@Step.onGameTick cexCfg 122000 stMid stResultsMid
      [{ event := "game_timer", target := Target.all },
       { event := "game_end", target := Target.all }] (by rfl) (by rfl))

theorem reach_stJoinC : Reachable cexCfg stJoinC :=
  Reachable.next reach_stResultsMid
    (@Step.onJoin cexCfg 125000 "sC" (some { walletAddress := some wC }) stResultsMid stJoinC
      [{ event := "lobby_joined", target := Target.toSender },
       { event := "lobby_update", target := Target.all }] (by rfl))

theorem reach_stSecond : Reachable cexCfg stSecond :=
  Reachable.next reach_stJoinC
    (@Step.onJoin cexCfg 126000 "sD" (some { walletAddress := some wD }) stJoinC stSecond
      [{ event := "game_start", target := Target.all },
       { event := "lobby_joined", target := Target.toSender },
       { event := "lobby_update", target := Target.all }] (by rfl))

end ReachLemmas

/-- C1: across any sequence of collectPenny calls, at most one call targeting
a given coin id succeeds; once the coin's collected flag is set, any further
call for that coin returns failure and the whole coordinator state — every
coin flag, every score, every map — is returned unchanged, and the flag
remains set across the rest of the sequence. -/
theorem collect_succeeds_at_most_once (st : GState)
    (calls : List (String × Option String)) (pid sid : String) :
    successCount pid calls st ≤ 1
    ∧ (coinCollectedB st pid = true →
        collectPenny sid (some pid) st = ({ success := false, playerScore := none }, st)
        ∧ coinCollectedB (runCollects calls st) pid = true) := by
  constructor
  · induction calls generalizing st with
    | nil => simp [successCount]
    | cons c cs ih =>
      unfold successCount
      by_cases hcond : c.2 = some pid ∧ (collectPenny c.1 c.2 st).1.success = true
      · rw [if_pos hcond]
        obtain ⟨he, hs⟩ := hcond
        have hcol : coinCollectedB (collectPenny c.1 c.2 st).2 pid = true := by
          rw [he] at hs ⊢
          exact collectPenny_success_collected hs
        rw [successCount_zero_of_collected hcol cs]
      · rw [if_neg hcond]
        simpa using ih (collectPenny c.1 c.2 st).2
  · intro h
    exact ⟨collectPenny_collected_eq h sid, coinCollectedB_runCollects h calls⟩

/-- Witness for C1 at a concrete state whose coin penny_0 is collected. -/
theorem collect_succeeds_at_most_once_witness :
    successCount "penny_0" [("sA", some "penny_0"), ("sB", some "penny_0")] c1State ≤ 1
    ∧ collectPenny "sB" (some "penny_0") c1State
        = ({ success := false, playerScore := none }, c1State)
    ∧ coinCollectedB (runCollects [("sA", some "penny_0")] c1State) "penny_0" = true := by
  refine ⟨(collect_succeeds_at_most_once c1State _ "penny_0" "sB").1, ?_, ?_⟩
  · exact ((collect_succeeds_at_most_once c1State [] "penny_0" "sB").2 (by decide)).1
  · exact ((collect_succeeds_at_most_once c1State [("sA", some "penny_0")] "penny_0" "sB").2
      (by decide)).2

/-- C2 (amended): in every reachable state whose phase is LOBBY, a
collectPenny call fails and returns the state unchanged, because the players
map is empty in the lobby phase; the code performs no phase check of its own,
so during RESULTS — where the players and pennies maps still hold the
finished round — a collect can succeed (see the counterexample). -/
theorem collect_fails_in_lobby_phase (cfg : Config) (st : GState)
    (h : Reachable cfg st) (hl : st.gamePhase = Phase.lobby)
    (sid : String) (x : Option String) :
    collectPenny sid x st = ({ success := false, playerScore := none }, st) := by
  have hp : st.players = [] := (reachable_stateInv h).1 hl
  unfold collectPenny
  rw [hp]
  rfl

/-- Witness for C2 at the initial state. -/
theorem collect_fails_in_lobby_phase_witness :
    collectPenny "sA" (some "penny_0") initState
      = ({ success := false, playerScore := none }, initState) :=
  collect_fails_in_lobby_phase cexCfg initState Reachable.start rfl "sA" (some "penny_0")

/-- C2 counterexample: a reachable RESULTS-phase state in which collectPenny
succeeds and increments a score — collection is not gated on the phase. -/
theorem collect_in_results_phase_cex :
    Reachable cexCfg stResultsClean
    ∧ stResultsClean.gamePhase = Phase.results
    ∧ (collectPenny "sA" (some "penny_0") stResultsClean).1.success = true
    ∧ scoreSum (collectPenny "sA" (some "penny_0") stResultsClean).2
        = scoreSum stResultsClean + 1 :=
  ⟨reach_stResultsClean, by decide, by decide, by decide⟩

/-- C4 (amended): addPlayerToLobby rejects, with a reason, exactly when the
wallet fails minimum-length validation, the wallet value is already in the
lobby, the lobby is full, or the phase is PLAYING; the phase test is
specifically on PLAYING, so join attempts during RESULTS are accepted (see
the counterexample). -/
theorem join_reject_characterization (cfg : Config) (now : Nat) (sid : String)
    (w : Option String) (st : GState) :
    ((addPlayerToLobby cfg now sid w st).1.success = false ↔ rejectCond cfg w st = true)
    ∧ ((addPlayerToLobby cfg now sid w st).1.success = false →
        ((addPlayerToLobby cfg now sid w st).1.reason).isSome = true) := by
  constructor
  · simp only [addPlayerToLobby, rejectCond, lobbyHasWallet]
    cases w with
    | none => simp [walletInvalid]
    | some wa =>
      simp only [Option.getD]
      split_ifs with h1 h2 h3 h4 <;> simp [*]
  · simp only [addPlayerToLobby]
    split_ifs <;> simp

/-- Witness for C4 at a concrete full single-seat lobby and a short wallet. -/
theorem join_reject_characterization_witness :
    (((addPlayerToLobby cfgMax1 5 "s2" (some "short") c6Full).1.success = false)
      ↔ rejectCond cfgMax1 (some "short") c6Full = true)
    ∧ ((addPlayerToLobby cfgMax1 5 "s2" (some "short") c6Full).1.reason).isSome = true :=
  ⟨(join_reject_characterization cfgMax1 5 "s2" (some "short") c6Full).1,
   (join_reject_characterization cfgMax1 5 "s2" (some "short") c6Full).2 (by decide)⟩

/-- C4 counterexample: a reachable RESULTS-phase state in which a fresh valid
join attempt is accepted, although the claim requires every join during
RESULTS to be rejected. -/
theorem join_accepted_in_results_cex :
    Reachable cexCfg stResultsClean
    ∧ stResultsClean.gamePhase = Phase.results
    ∧ (addPlayerToLobby cexCfg 123000 "sC" (some wC) stResultsClean).1.success = true :=
  ⟨reach_stResultsClean, by decide, by decide⟩

/-- C6 (amended): the lobby never exceeds maxPlayers in any reachable state;
a join attempt arriving at a full lobby receives the full-lobby rejection
provided its wallet passes validation and is not already present — the
invalid-wallet and duplicate-wallet checks run first and their reasons take
precedence (see the counterexample). -/
theorem lobby_never_exceeds_capacity :
    (∀ cfg : Config, ∀ st : GState, Reachable cfg st → mapSize st.lobby ≤ cfg.maxPlayers)
    ∧ (∀ cfg : Config, ∀ now : Nat, ∀ sid wa : String, ∀ st : GState,
        walletInvalid (some wa) = false →
        lobbyHasWallet st wa = false →
        cfg.maxPlayers ≤ mapSize st.lobby →
        addPlayerToLobby cfg now sid (some wa) st
          = ({ success := false, reason := some "Lobby is full. You can spectate!" }, st, [])) := by
  constructor
  · intro cfg st h
    exact (reachable_stateInv h).2
  · intro cfg now sid wa st h1 h2 h3
    unfold lobbyHasWallet at h2
    simp [addPlayerToLobby, h1, h2, h3]

/-- Witness for C6: the reachable initial state respects the bound, and a
valid non-duplicate join into a full single-seat lobby gets the full-lobby
reason. -/
theorem lobby_never_exceeds_capacity_witness :
    mapSize initState.lobby ≤ cexCfg.maxPlayers
    ∧ addPlayerToLobby cfgMax1 5 "s2" (some wB) c6Full
        = ({ success := false, reason := some "Lobby is full. You can spectate!" }, c6Full, []) :=
  ⟨lobby_never_exceeds_capacity.1 cexCfg initState Reachable.start,
   lobby_never_exceeds_capacity.2 cfgMax1 5 "s2" wB c6Full (by decide) (by decide) (by decide)⟩

/-- C6 counterexample: a join attempt arriving while the lobby already holds
maxPlayers entries is rejected with the invalid-wallet reason, not the
full-lobby reason, because wallet validation runs before the capacity
check. -/
theorem full_lobby_reason_precedence_cex :
    mapSize c6Full.lobby = cfgMax1.maxPlayers
    ∧ (addPlayerToLobby cfgMax1 5 "s2" (some "short") c6Full).1.success = false
    ∧ (addPlayerToLobby cfgMax1 5 "s2" (some "short") c6Full).1.reason
        = some "Invalid wallet address"
    ∧ (addPlayerToLobby cfgMax1 5 "s2" (some "short") c6Full).1.reason
        ≠ some "Lobby is full. You can spectate!" :=
  ⟨by decide, by decide, by decide, by decide⟩

/-- C3 (amended): when the sender has no ActivePlayer record, the player_move
handler mutates no state but still broadcasts player_moved to every other
connection (the broadcast is unconditional in the handler); when the sender is
an ActivePlayer, the reported position and rotation are stored verbatim and
the update is broadcast to all connections other than the sender. -/
theorem player_move_behavior (st : GState) (sid : String) :
    (∀ d : Option MoveData, mapGet st.players sid = none →
        playerMoveHandler sid d st
          = Except.ok (st, [{ event := "player_moved", target := Target.others }]))
    ∧ (∀ p : Player, ∀ d : MoveData, mapGet st.players sid = some p →
        playerMoveHandler sid (some d) st
          = Except.ok
              ({ st with players := (mapSet st.players sid
                  { p with position := d.position, rotation := d.rotation }) },
               [{ event := "player_moved", target := Target.others }])) := by
  constructor
  · intro d hnone
    unfold playerMoveHandler updatePlayerPosition
    rw [hnone]
  · intro p d hsome
    unfold playerMoveHandler updatePlayerPosition
    rw [hsome]

/-- Witness for C3: a never-joined connection at the initial state, and an
active player at a concrete playing state. -/
theorem player_move_behavior_witness :
    playerMoveHandler "ghost" (some c3MoveData) initState
      = Except.ok (initState, [{ event := "player_moved", target := Target.others }])
    ∧ playerMoveHandler "sA" (some c3MoveData) c1State
      = Except.ok
          ({ c1State with players := (mapSet c1State.players "sA"
              { walletAddress := wA, position := c3MoveData.position,
                rotation := c3MoveData.rotation, score := 1 }) },
           [{ event := "player_moved", target := Target.others }]) :=
  ⟨(player_move_behavior initState "ghost").1 (some c3MoveData) (by rfl),
   (player_move_behavior c1State "sA").2
     { walletAddress := wA, position := none, rotation := none, score := 1 }
     c3MoveData (by rfl)⟩

/-- C3 counterexample: a connection with no ActivePlayer record sends
player_move and a player_moved broadcast is still emitted to all other
connections, although the claim requires that no broadcast be emitted. -/
theorem player_move_ghost_broadcast_cex :
    mapGet initState.players "ghost" = none
    ∧ playerMoveHandler "ghost" (some c3MoveData) initState
        = Except.ok (initState, [{ event := "player_moved", target := Target.others }])
    ∧ [{ event := "player_moved", target := Target.others }] ≠ ([] : List Msg) :=
  ⟨by rfl, by rfl, by decide⟩

section StartGameLemmas

theorem foldl_mapSet_append (f : String × LobbyEntry → Player) :
    ∀ (l : List (String × LobbyEntry)) (acc : List (String × Player)),
      (∀ k ∈ l.map Prod.fst, mapGet acc k = none) →
      (l.map Prod.fst).Nodup →
      l.foldl (fun ps q => mapSet ps q.1 (f q)) acc
        = acc ++ l.map (fun q => (q.1, f q)) := by
  intro l
  induction l with
  | nil =>
    intro acc _ _
    simp
  | cons q t ih =>
    intro acc hnone hnd
    simp only [List.foldl_cons]
    have h1 : mapGet acc q.1 = none := hnone q.1 (by simp)
    rw [mapSet_of_get_none acc q.1 (f q) h1]
    simp only [List.map_cons, List.nodup_cons] at hnd
    rw [ih (acc ++ [(q.1, f q)]) ?_ hnd.2]
    · simp
    · intro k hk
      have hkacc : mapGet acc k = none := hnone k (by simp [hk])
      rw [mapGet_append_none acc _ k hkacc]
      have hkq : ¬ q.1 = k := by
        intro hh
        rw [hh] at hnd
        exact hnd.1 hk
      simp [mapGet, hkq]

theorem foldl_mapSet_score_zero (f : String × LobbyEntry → Player)
    (hf : ∀ q, (f q).score = 0) :
    ∀ (l : List (String × LobbyEntry)) (acc : List (String × Player)),
      (∀ q ∈ acc, (q : String × Player).2.score = 0) →
      ∀ q ∈ l.foldl (fun ps q => mapSet ps q.1 (f q)) acc, q.2.score = 0 := by
  intro l
  induction l with
  | nil =>
    intro acc hacc q hq
    exact hacc q hq
  | cons c t ih =>
    intro acc hacc q hq
    simp only [List.foldl_cons] at hq
    refine ih (mapSet acc c.1 (f c)) ?_ q hq
    intro r hr
    rcases mem_mapSet hr with hr' | hr'
    · exact hacc r hr'
    · rw [hr']
      exact hf c

theorem startGame_players_def (cfg : Config) (now : Nat) (st : GState) :
    (startGame cfg now st).1.players
      = st.lobby.foldl
          (fun ps q => mapSet ps q.1
            { walletAddress := q.2.walletAddress,
              position := some (cfg.spawnAt q.1),
              rotation := some { x := 0, y := 0 },
              score := 0 }) st.players := rfl

theorem startGame_pennies_def (cfg : Config) (now : Nat) (st : GState) :
    (startGame cfg now st).1.pennies
      = (List.range cfg.totalPennies).map
          (fun i => ("penny_" ++ toString i,
            { position := cfg.pennyPosAt i, collected := false })) := rfl

theorem penniesRemaining_startGame (cfg : Config) (now : Nat) (st : GState) :
    penniesRemaining (startGame cfg now st).1 = cfg.totalPennies := by
  unfold penniesRemaining
  rw [startGame_pennies_def]
  rw [List.filter_eq_self.mpr ?_]
  · simp
  · intro a ha
    simp only [List.mem_map] at ha
    obtain ⟨i, _, rfl⟩ := ha
    rfl

theorem scoreSum_eq_zero {m : List (String × Player)}
    (h : ∀ q ∈ m, (q : String × Player).2.score = 0) :
    (m.map (fun q => q.2.score)).sum = 0 := by
  refine List.sum_eq_zero ?_
  intro x hx
  simp only [List.mem_map] at hx
  obtain ⟨q, hq, rfl⟩ := hx
  exact h q hq

theorem scoreSum_startGame_empty (cfg : Config) (now : Nat) (st : GState)
    (hp : st.players = []) : scoreSum (startGame cfg now st).1 = 0 := by
  unfold scoreSum
  rw [startGame_players_def]
  refine scoreSum_eq_zero ?_
  refine foldl_mapSet_score_zero _ (fun q => rfl) st.lobby st.players ?_
  rw [hp]
  intro q hq
  cases hq

end StartGameLemmas

/-- C7 (amended): when startGame runs on a state whose players map is empty —
which holds for every round started from the lobby phase, where the players
map is empty — and the lobby holds K entries, the players map afterwards
holds exactly those K ActivePlayers (score 0, wallet copied from the lobby
entry), the lobby is cleared, and the pennies map holds exactly totalPennies
coins, all uncollected.  The code does not clear the players map itself, so a
startGame fired during the results phase adds to the survivors instead (see
the counterexample). -/
theorem startGame_populates_from_lobby (cfg : Config) (now : Nat) (st : GState)
    (hp : st.players = []) (hnd : (st.lobby.map Prod.fst).Nodup) :
    (startGame cfg now st).1.players
      = st.lobby.map (fun q => (q.1,
          { walletAddress := q.2.walletAddress,
            position := some (cfg.spawnAt q.1),
            rotation := some { x := 0, y := 0 },
            score := 0 }))
    ∧ (startGame cfg now st).1.lobby = []
    ∧ mapSize (startGame cfg now st).1.players = mapSize st.lobby
    ∧ (∀ q ∈ (startGame cfg now st).1.players,
        q.2.score = 0 ∧ ∃ e, (q.1, e) ∈ st.lobby ∧ q.2.walletAddress = e.walletAddress)
    ∧ mapSize (startGame cfg now st).1.pennies = cfg.totalPennies
    ∧ (∀ q ∈ (startGame cfg now st).1.pennies, q.2.collected = false) := by
  have hplayers : (startGame cfg now st).1.players
      = st.lobby.map (fun q => (q.1,
          { walletAddress := q.2.walletAddress,
            position := some (cfg.spawnAt q.1),
            rotation := some { x := 0, y := 0 },
            score := 0 })) := by
    rw [startGame_players_def, hp]
    rw [foldl_mapSet_append _ st.lobby [] (fun k _ => rfl) hnd]
    simp
  refine ⟨hplayers, rfl, ?_, ?_, ?_, ?_⟩
  · rw [hplayers]
    simp [mapSize]
  · rw [hplayers]
    intro q hq
    simp only [List.mem_map] at hq
    obtain ⟨e, he, rfl⟩ := hq
    exact ⟨rfl, e.2, he, rfl⟩
  · rw [startGame_pennies_def]
    simp [mapSize]
  · rw [startGame_pennies_def]
    intro q hq
    simp only [List.mem_map] at hq
    obtain ⟨i, _, rfl⟩ := hq
    rfl

/-- Witness for C7 at a concrete single-entry lobby with no active players. -/
theorem startGame_populates_from_lobby_witness :
    (startGame cfgMax1 7 c6Full).1.players
      = c6Full.lobby.map (fun q => (q.1,
          { walletAddress := q.2.walletAddress,
            position := some (cfgMax1.spawnAt q.1),
            rotation := some { x := 0, y := 0 },
            score := 0 }))
    ∧ (startGame cfgMax1 7 c6Full).1.lobby = []
    ∧ mapSize (startGame cfgMax1 7 c6Full).1.players = mapSize c6Full.lobby
    ∧ (∀ q ∈ (startGame cfgMax1 7 c6Full).1.players,
        q.2.score = 0 ∧ ∃ e, (q.1, e) ∈ c6Full.lobby ∧ q.2.walletAddress = e.walletAddress)
    ∧ mapSize (startGame cfgMax1 7 c6Full).1.pennies = cfgMax1.totalPennies
    ∧ (∀ q ∈ (startGame cfgMax1 7 c6Full).1.pennies, q.2.collected = false) :=
  startGame_populates_from_lobby cfgMax1 7 c6Full (by rfl) (by decide)

/-- C7 counterexample: a reachable trace in which the second round's
startGame runs during the results phase with K = 2 lobby entries while the
previous round's two players are still in the players map: afterwards the
players map holds 4 entries, not K, and not all scores are 0. -/
theorem startGame_with_leftover_players_cex :
    Reachable cexCfg stSecond
    ∧ stSecond = (startGame cexCfg 126000 c7PreStart).1
    ∧ mapSize c7PreStart.lobby = 2
    ∧ mapSize stSecond.players = 4
    ∧ mapSize stSecond.players ≠ mapSize c7PreStart.lobby
    ∧ ¬ (∀ q ∈ stSecond.players, q.2.score = 0) :=
  ⟨reach_stSecond, by rfl, by decide, by decide, by decide, by decide⟩

section ConservationLemmas

theorem addPlayerToLobby_playing_eq {cfg : Config} {now : Nat} {sid : String}
    {w : Option String} {st : GState} (h : st.gamePhase = Phase.playing) :
    (addPlayerToLobby cfg now sid w st).2.1 = st := by
  simp only [addPlayerToLobby]
  split_ifs <;> first | rfl | exact absurd h (by assumption)

theorem conserved_collectPenny {cfg : Config} {st : GState}
    (h : Conserved cfg st) (sid : String) (x : Option String) :
    Conserved cfg (collectPenny sid x st).2 := by
  rcases collectPenny_cases sid x st with ⟨_, he⟩ | ⟨pid', penny, player, hx, hp, hq, hc, he⟩
  · rw [he]; exact h
  · have he2 : (collectPenny sid x st).2
        = { st with
            pennies := (mapSet st.pennies pid' { penny with collected := true }),
            players := (mapSet st.players sid { player with score := player.score + 1 }) } := by
      rw [he]
    rw [he2]
    unfold Conserved scoreSum penniesRemaining at h ⊢
    have hsum := sum_map_mapSet (fun p => p.score) st.players sid
      { player with score := player.score + 1 } player hp
    have hcount := count_filter_mapSet (fun p => !p.collected) st.pennies pid'
      { penny with collected := true } penny hq
    simp [hc] at hcount
    simp only at hsum ⊢
    omega

theorem conserved_endGame {cfg : Config} {st : GState} (h : Conserved cfg st) :
    Conserved cfg (endGame st).1 := h

theorem conserved_addSpectator {cfg : Config} {st : GState} (h : Conserved cfg st)
    (sid : String) : Conserved cfg (addSpectator sid st) := by
  unfold Conserved scoreSum penniesRemaining at h ⊢
  unfold addSpectator
  exact h

end ConservationLemmas

/-- C10 (amended): coin/score conservation holds through a round provided
startGame ran on an empty players map (true for every round started from the
lobby phase): right after such a startGame, the players' score sum plus the
uncollected-coin count equals totalPennies, and every subsequent
collectPenny, position update, join attempt arriving during PLAYING,
spectator join, game-timer tick and endGame preserves that sum.  A further
startGame fired during the results phase re-establishes nothing, because the
surviving players keep their scores (see the counterexample). -/
theorem conservation_through_round :
    (∀ cfg : Config, ∀ now : Nat, ∀ st : GState, st.players = [] →
        Conserved cfg (startGame cfg now st).1)
    ∧ (∀ cfg : Config, ∀ st : GState, ∀ sid : String, ∀ x : Option String,
        Conserved cfg st → Conserved cfg (collectPenny sid x st).2)
    ∧ (∀ cfg : Config, ∀ st st' : GState, ∀ sid : String, ∀ d : Option MoveData,
        Conserved cfg st → updatePlayerPosition sid d st = Except.ok st' →
        Conserved cfg st')
    ∧ (∀ cfg : Config, ∀ now : Nat, ∀ sid : String, ∀ w : Option String, ∀ st : GState,
        Conserved cfg st → st.gamePhase = Phase.playing →
        Conserved cfg (addPlayerToLobby cfg now sid w st).2.1)
    ∧ (∀ cfg : Config, ∀ st : GState, ∀ sid : String,
        Conserved cfg st → Conserved cfg (addSpectator sid st))
    ∧ (∀ cfg : Config, ∀ st : GState, Conserved cfg st → Conserved cfg (endGame st).1)
    ∧ (∀ cfg : Config, ∀ now : Nat, ∀ st : GState,
        Conserved cfg st → Conserved cfg (gameTick cfg now st).1) := by
  refine ⟨?_, ?_, ?_, ?_, ?_, ?_, ?_⟩
  · intro cfg now st hp
    unfold Conserved
    rw [penniesRemaining_startGame]
    unfold scoreSum
    rw [show ((startGame cfg now st).1.players.map (fun q => q.2.score)).sum
          = scoreSum (startGame cfg now st).1 from rfl]
    rw [scoreSum_startGame_empty cfg now st hp]
    omega
  · intro cfg st sid x h
    exact conserved_collectPenny h sid x
  · intro cfg st st' sid d h hok
    obtain ⟨_, _, hpen, _, _, hscore⟩ := updatePlayerPosition_ok_fields hok
    unfold Conserved at h ⊢
    unfold penniesRemaining at h ⊢
    rw [hpen, hscore]
    exact h
  · intro cfg now sid w st h hplay
    rw [addPlayerToLobby_playing_eq hplay]
    exact h
  · intro cfg st sid h
    exact conserved_addSpectator h sid
  · intro cfg st h
    exact conserved_endGame h
  · intro cfg now st h
    rcases gameTick_state_cases cfg now st with he | he
    · rw [he]; exact h
    · rw [he]; exact conserved_endGame h

/-- Witness for C10 at concrete round states of the two-player, one-coin
configuration. -/
theorem conservation_through_round_witness :
    Conserved cexCfg (startGame cexCfg 9 c6Full).1
    ∧ Conserved cexCfg (collectPenny "sA" (some "penny_0") stJoinB).2
    ∧ Conserved cexCfg stJoinB
    ∧ Conserved cexCfg (addPlayerToLobby cexCfg 2000 "sE" (some wC) stJoinB).2.1
    ∧ Conserved cexCfg (addSpectator "sZ" stJoinB)
    ∧ Conserved cexCfg (endGame stJoinB).1
    ∧ Conserved cexCfg (gameTick cexCfg 122000 stJoinB).1 :=
  ⟨conservation_through_round.1 cexCfg 9 c6Full (by rfl),
   conservation_through_round.2.1 cexCfg stJoinB "sA" (some "penny_0") (by decide),
   conservation_through_round.2.2.1 cexCfg stJoinB stJoinB "ghost" (some c3MoveData)
     (by decide) (by rfl),
   conservation_through_round.2.2.2.1 cexCfg 2000 "sE" (some wC) stJoinB (by decide) (by decide),
   conservation_through_round.2.2.2.2.1 cexCfg stJoinB "sZ" (by decide),
   conservation_through_round.2.2.2.2.2.1 cexCfg stJoinB (by decide),
   conservation_through_round.2.2.2.2.2.2 cexCfg 122000 stJoinB (by decide)⟩

/-- C10 counterexample: on the reachable trace where a results-phase lobby
fill restarts the game with one surviving scorer, the moment the second
startGame completes the players' score sum plus the uncollected-coin count is
2, not totalPennies = 1, with no disconnect anywhere in the trace. -/
theorem conservation_broken_by_results_restart_cex :
    Reachable cexCfg stSecond
    ∧ stSecond = (startGame cexCfg 126000 c7PreStart).1
    ∧ cexCfg.totalPennies = 1
    ∧ scoreSum stSecond + penniesRemaining stSecond = 2
    ∧ ¬ Conserved cexCfg stSecond :=
  ⟨reach_stSecond, by rfl, by rfl, by decide, by decide⟩

/-- C8: from the LOBBY phase, the transition to PLAYING fires exactly when a
successful join makes the lobby reach the configured maximum, or when a lobby
timer tick finds the countdown expired with at least 2 members; an expired
tick with fewer than 2 members performs no transition, restarts the countdown
by re-stamping lobbyStartTime, and emits the informational lobby_message
broadcast. -/
theorem lobby_to_playing_transition (cfg : Config) :
    (∀ now : Nat, ∀ sid wa : String, ∀ st : GState, st.gamePhase = Phase.lobby →
      ((addPlayerToLobby cfg now sid (some wa) st).2.1.gamePhase = Phase.playing
        ↔ ((addPlayerToLobby cfg now sid (some wa) st).1.success = true
            ∧ cfg.maxPlayers ≤ mapSize (mapSet st.lobby sid { walletAddress := wa, joinTime := now }))))
    ∧ (∀ now start : Nat, ∀ st : GState, st.gamePhase = Phase.lobby →
        st.lobbyStartTime = some start →
        (((lobbyTick cfg now st).1.gamePhase = Phase.playing
            ↔ (cfg.lobbyTimerSeconds * 1000 ≤ now - start ∧ 2 ≤ mapSize st.lobby))
          ∧ (cfg.lobbyTimerSeconds * 1000 ≤ now - start → mapSize st.lobby < 2 →
              (lobbyTick cfg now st).1 = { st with lobbyStartTime := some now }
              ∧ { event := "lobby_message", target := Target.all } ∈ (lobbyTick cfg now st).2))) := by
  constructor
  · intro now sid wa st hl
    simp only [addPlayerToLobby, Option.getD_some]
    split_ifs with h1 h2 h3 h4 h5 h6
    · simp [hl]
    · simp [hl]
    · simp [hl]
    · simp [hl]
    · exact ⟨fun _ => ⟨rfl, h6⟩, fun _ => rfl⟩
    · have hphase : (startLobbyTimer now
          { st with lobby := mapSet st.lobby sid { walletAddress := wa, joinTime := now } }).gamePhase
          = st.gamePhase := rfl
      rw [hphase, hl]
      have h6' : ¬ cfg.maxPlayers ≤ mapSize (mapSet st.lobby sid { walletAddress := wa, joinTime := now }) := h6
      simp [h6']
    · exact ⟨fun _ => ⟨rfl, by assumption⟩, fun _ => rfl⟩
    · have hphase : ({ st with lobby := mapSet st.lobby sid { walletAddress := wa, joinTime := now } } : GState).gamePhase
          = st.gamePhase := rfl
      rw [hphase, hl]
      have h7' : ¬ cfg.maxPlayers ≤ mapSize (mapSet st.lobby sid { walletAddress := wa, joinTime := now }) := by
        assumption
      simp [h7']
  · intro now start st hl hstart
    simp only [lobbyTick, hstart]
    split_ifs with h1 h2
    · refine ⟨⟨fun _ => h1, fun _ => rfl⟩, fun hexp hsize => ?_⟩
      exact absurd h1.2 (by omega)
    · refine ⟨?_, fun hexp hsize => ⟨rfl, by simp⟩⟩
      simp only [not_and] at h1
      constructor
      · intro hph
        rw [show ({ st with lobbyStartTime := some now } : GState).gamePhase
              = st.gamePhase from rfl, hl] at hph
        cases hph
      · intro hrhs
        exact absurd (h1 hrhs.1 hrhs.2).elim id
    · refine ⟨?_, fun hexp _ => absurd hexp h2⟩
      constructor
      · intro hph
        rw [hl] at hph
        cases hph
      · intro hrhs
        exact absurd hrhs.1 h2

/-- Witness for C8 at the one-entrant lobby state of the concrete two-seat
configuration: the join of the second player, and a tick far past the
countdown with a single member. -/
theorem lobby_to_playing_transition_witness :
    ((addPlayerToLobby cexCfg 1000 "sB" (some wB) stJoinA).2.1.gamePhase = Phase.playing
      ↔ ((addPlayerToLobby cexCfg 1000 "sB" (some wB) stJoinA).1.success = true
          ∧ cexCfg.maxPlayers ≤ mapSize (mapSet stJoinA.lobby "sB" { walletAddress := wB, joinTime := 1000 })))
    ∧ (((lobbyTick cexCfg 500000 stJoinA).1.gamePhase = Phase.playing
        ↔ (cexCfg.lobbyTimerSeconds * 1000 ≤ 500000 - 0 ∧ 2 ≤ mapSize stJoinA.lobby))
      ∧ ((lobbyTick cexCfg 500000 stJoinA).1 = { stJoinA with lobbyStartTime := some 500000 }
          ∧ { event := "lobby_message", target := Target.all } ∈ (lobbyTick cexCfg 500000 stJoinA).2)) :=
  ⟨(lobby_to_playing_transition cexCfg).1 1000 "sB" wB stJoinA (by rfl),
   ((lobby_to_playing_transition cexCfg).2 500000 0 stJoinA (by rfl) (by rfl)).1,
   ((lobby_to_playing_transition cexCfg).2 500000 0 stJoinA (by rfl) (by rfl)).2
     (by decide) (by decide)⟩

section RewardLemmas

theorem jsRound_le (q : ℚ) : (jsRound q : ℚ) ≤ q + 1 / 2 :=
  Int.floor_le (q + 1 / 2)

theorem jsRound_of_bounds (q : ℚ) (z : ℤ) (h1 : (z : ℚ) ≤ q + 1 / 2)
    (h2 : q + 1 / 2 < z + 1) : jsRound q = z := by
  unfold jsRound
  exact Int.floor_eq_iff.mpr ⟨h1, h2⟩

theorem jsRound_ge (q : ℚ) : q - 1 / 2 ≤ (jsRound q : ℚ) := by
  have h := Int.lt_floor_add_one (q + 1 / 2)
  unfold jsRound
  linarith

theorem jsRound_sum_upper (g : Nat → ℚ) (l : List Nat) :
    (((l.map (fun s => jsRound (g s))).sum : ℤ) : ℚ)
      ≤ (l.map g).sum + l.length * (1 / 2) := by
  induction l with
  | nil => simp
  | cons a t ih =>
    simp only [List.map_cons, List.sum_cons, List.length_cons]
    push_cast
    push_cast at ih
    have ha := jsRound_le (g a)
    linarith

theorem jsRound_sum_lower (g : Nat → ℚ) (l : List Nat) :
    (l.map g).sum - l.length * (1 / 2)
      ≤ (((l.map (fun s => jsRound (g s))).sum : ℤ) : ℚ) := by
  induction l with
  | nil => simp
  | cons a t ih =>
    simp only [List.map_cons, List.sum_cons, List.length_cons]
    push_cast
    push_cast at ih
    have ha := jsRound_ge (g a)
    linarith

theorem map_div_mul_sum (l : List Nat) (T : ℚ) (hT : T ≠ 0)
    (hsum : ((l.sum : Nat) : ℚ) = T) :
    (l.map (fun s : Nat => (s : ℚ) / T * 100)).sum = 100 := by
  have h1 : l.map (fun s : Nat => (s : ℚ) / T * 100)
      = l.map (fun s : Nat => ((s : ℚ)) * (100 / T)) := by
    refine List.map_congr_left ?_
    intro a _
    field_simp
  rw [h1, List.sum_map_mul_right]
  rw [show (l.map (fun s : Nat => ((s : ℚ)))) = l.map (Nat.cast) from rfl]
  rw [← Nat.cast_list_sum, hsum]
  field_simp

theorem share_sum_bounds (l : List Nat) (T : Nat) (hT : 0 < T) (hsum : l.sum = T)
    (hlen : l.length ≤ 3) :
    99 ≤ (l.map (fun s : Nat => jsRound ((s : ℚ) / (T : ℚ) * 100))).sum
    ∧ (l.map (fun s : Nat => jsRound ((s : ℚ) / (T : ℚ) * 100))).sum ≤ 101 := by
  have hTQ : ((T : Nat) : ℚ) ≠ 0 := by
    exact_mod_cast Nat.pos_iff_ne_zero.mp hT
  have hexact : (l.map (fun s : Nat => (s : ℚ) / (T : ℚ) * 100)).sum = 100 :=
    map_div_mul_sum l (T : ℚ) hTQ (by exact_mod_cast congrArg (fun n : Nat => ((n : Nat) : ℚ)) hsum)
  have hup := jsRound_sum_upper (fun s : Nat => (s : ℚ) / (T : ℚ) * 100) l
  have hlo := jsRound_sum_lower (fun s : Nat => (s : ℚ) / (T : ℚ) * 100) l
  rw [hexact] at hup hlo
  have hlenQ : (l.length : ℚ) ≤ 3 := by exact_mod_cast hlen
  have hlen0 : (0 : ℚ) ≤ (l.length : ℚ) := by positivity
  constructor
  · by_contra hcon
    push_neg at hcon
    have h98 : (l.map (fun s : Nat => jsRound ((s : ℚ) / (T : ℚ) * 100))).sum ≤ 98 := by omega
    have h98Q : (((l.map (fun s : Nat => jsRound ((s : ℚ) / (T : ℚ) * 100))).sum : ℤ) : ℚ) ≤ 98 := by
      exact_mod_cast h98
    nlinarith
  · by_contra hcon
    push_neg at hcon
    have h102 : 102 ≤ (l.map (fun s : Nat => jsRound ((s : ℚ) / (T : ℚ) * 100))).sum := by omega
    have h102Q : (102 : ℚ) ≤ (((l.map (fun s : Nat => jsRound ((s : ℚ) / (T : ℚ) * 100))).sum : ℤ) : ℚ) := by
      exact_mod_cast h102
    nlinarith

theorem attachRewards_map_percent_pos (T N : Nat) (hT : 0 < T) :
    ∀ (i : Nat) (l : List RankEntry),
      (attachRewards T N i l).map (fun w => w.rewardPercent)
        = l.map (fun w => jsRound (((w.score : ℚ) / (T : ℚ)) * 100)) := by
  intro i l
  induction l generalizing i with
  | nil => rfl
  | cons a t ih =>
    simp only [attachRewards, List.map_cons, if_pos hT]
    rw [ih (i + 1)]

theorem attachRewards_percent_zero (N : Nat) :
    ∀ (i : Nat) (l : List RankEntry), ∀ w ∈ attachRewards 0 N i l,
      w.rewardPercent = jsRound (100 / (N : ℚ)) := by
  intro i l
  induction l generalizing i with
  | nil =>
    intro w hw
    cases hw
  | cons a t ih =>
    intro w hw
    simp only [attachRewards, List.mem_cons] at hw
    rcases hw with hw | hw
    · rw [hw]
      simp
    · exact ih (i + 1) w hw

theorem winners_length (st : GState) :
    (winners st).length = min 3 (st.players.length) := by
  unfold winners
  rw [List.length_take]
  have hlen : (rankings st).length = st.players.length := by
    unfold rankings
    rw [List.length_insertionSort, List.length_map]
  rw [hlen]
  omega

theorem distributeRewardPercents_sum_pos (ws : List RankEntry) (T : Nat)
    (hT : 0 < T) (hsum : (ws.map (fun w => w.score)).sum = T) :
    (distributeRewardPercents ws T).sum = 100 := by
  unfold distributeRewardPercents
  rw [show ws.map (fun w => if 0 < T then ((w.score : ℚ) / (T : ℚ)) * 100
        else 100 / (ws.length : ℚ))
      = ws.map (fun w => ((w.score : ℚ) / (T : ℚ)) * 100) from by simp [hT]]
  rw [show ws.map (fun w => ((w.score : ℚ) / (T : ℚ)) * 100)
      = (ws.map (fun w : RankEntry => w.score)).map (fun s : Nat => (s : ℚ) / (T : ℚ) * 100) from by
    rw [List.map_map]
    rfl]
  refine map_div_mul_sum _ _ ?_ ?_
  · exact_mod_cast Nat.pos_iff_ne_zero.mp hT
  · rw [hsum]

end RewardLemmas

/-- C5: at game end the winners are the top min(3, N) of the rankings sorted
by descending score (a stable sort of the players map projection); when the
winners' combined score T is positive, every broadcast reward share equals
Math.round(score / T * 100), the integer shares total between 99 and 101 —
that is, 100% within the rounding of each of the at-most-3 shares to the
nearest integer — and the unrounded percentages handed to the payout service
total exactly 100; when T is zero, every winner's share is the rounded equal
split of 100 over the number of winners, which for 1, 2 or 3 winners equals
the integer quotient 100/N. -/
theorem winners_and_reward_shares (st : GState) :
    List.Sorted scoreDesc (rankings st)
    ∧ (rankings st).Perm (st.players.map (fun q =>
        { id := q.1, walletAddress := q.2.walletAddress, score := q.2.score }))
    ∧ (winners st).length = min 3 (st.players.length)
    ∧ (0 < top3TotalCoins st →
        ((winnersWithRewards st).map (fun w => w.rewardPercent)
            = (winners st).map (fun w =>
                jsRound (((w.score : ℚ) / (top3TotalCoins st : ℚ)) * 100)))
        ∧ 99 ≤ ((winnersWithRewards st).map (fun w => w.rewardPercent)).sum
        ∧ ((winnersWithRewards st).map (fun w => w.rewardPercent)).sum ≤ 101
        ∧ (distributeRewardPercents (winners st) (top3TotalCoins st)).sum = 100)
    ∧ (top3TotalCoins st = 0 →
        ∀ w ∈ winnersWithRewards st,
          w.rewardPercent = ((100 / (winners st).length : Nat) : ℤ)) := by
  have hw3 : (winners st).length ≤ 3 := by
    unfold winners
    rw [List.length_take]
    omega
  refine ⟨?_, ?_, winners_length st, ?_, ?_⟩
  · exact List.sorted_insertionSort scoreDesc _
  · exact List.perm_insertionSort scoreDesc _
  · intro hT
    have hmap := attachRewards_map_percent_pos (top3TotalCoins st) (winners st).length hT
      0 (winners st)
    have hkey := share_sum_bounds ((winners st).map (fun w : RankEntry => w.score)) (top3TotalCoins st)
      hT rfl (by rw [List.length_map]; exact hw3)
    have hS : ((winnersWithRewards st).map (fun w => w.rewardPercent)).sum
        = (((winners st).map (fun w : RankEntry => w.score)).map
            (fun s : Nat => jsRound ((s : ℚ) / (top3TotalCoins st : ℚ) * 100))).sum := by
      unfold winnersWithRewards
      rw [hmap, List.map_map]
      rfl
    refine ⟨?_, ?_, ?_, ?_⟩
    · unfold winnersWithRewards
      exact hmap
    · rw [hS]; exact hkey.1
    · rw [hS]; exact hkey.2
    · exact distributeRewardPercents_sum_pos (winners st) (top3TotalCoins st) hT rfl
  · intro hT w hw
    unfold winnersWithRewards at hw
    rw [hT] at hw
    have hper := attachRewards_percent_zero (winners st).length 0 (winners st) w hw
    have hne : winners st ≠ [] := by
      intro hnil
      rw [hnil] at hw
      cases hw
    have h1 : 1 ≤ (winners st).length := List.length_pos.mpr hne
    rw [hper]
    set N := (winners st).length with hN
    interval_cases N
    · exact jsRound_of_bounds _ _ (by norm_num) (by norm_num)
    · exact jsRound_of_bounds _ _ (by norm_num) (by norm_num)
    · exact jsRound_of_bounds _ _ (by norm_num) (by norm_num)

/-- Witness for C5: a round whose top three scored 4, 1, 1 (rounded shares
67 + 17 + 17 = 101), and a round where all three winners scored zero
(equal split 33 each). -/
theorem winners_and_reward_shares_witness :
    (((winnersWithRewards c5StPos).map (fun w => w.rewardPercent)
        = (winners c5StPos).map (fun w =>
            jsRound (((w.score : ℚ) / (top3TotalCoins c5StPos : ℚ)) * 100)))
      ∧ 99 ≤ ((winnersWithRewards c5StPos).map (fun w => w.rewardPercent)).sum
      ∧ ((winnersWithRewards c5StPos).map (fun w => w.rewardPercent)).sum ≤ 101
      ∧ (distributeRewardPercents (winners c5StPos) (top3TotalCoins c5StPos)).sum = 100)
    ∧ (∀ w ∈ winnersWithRewards c5StZero,
        w.rewardPercent = ((100 / (winners c5StZero).length : Nat) : ℤ)) :=
  ⟨(winners_and_reward_shares c5StPos).2.2.2.1 (by decide),
   (winners_and_reward_shares c5StZero).2.2.2.2 (by decide)⟩

section JsHandlerLemmas

theorem serializeLobby_ok_of_all :
    ∀ l : List (String × LobbyEntryJs),
      l.all (fun q => jsIsString q.2.walletAddress) = true →
      ∃ v, serializeLobby l = Except.ok v := by
  intro l
  induction l with
  | nil => exact fun _ => ⟨[], rfl⟩
  | cons q t ih =>
    intro h
    simp only [List.all_cons, Bool.and_eq_true] at h
    obtain ⟨v, hv⟩ := ih h.2
    rcases hw : q.2.walletAddress with _ | s | n | b | r
    · rw [hw] at h; simp [jsIsString] at h
    · exact ⟨(q.1, s.take 6 ++ "..." ++ s.drop (s.length - 4)) :: v, by
        simp [serializeLobby, maskLobbyWallet, hw, hv]⟩
    · rw [hw] at h; simp [jsIsString] at h
    · rw [hw] at h; simp [jsIsString] at h
    · rw [hw] at h; simp [jsIsString] at h

theorem serializeLobby_error_of_not_all :
    ∀ l : List (String × LobbyEntryJs),
      l.all (fun q => jsIsString q.2.walletAddress) = false →
      serializeLobby l = Except.error JsError.typeError := by
  intro l
  induction l with
  | nil => intro h; simp at h
  | cons q t ih =>
    intro h
    rcases hw : q.2.walletAddress with _ | s | n | b | r
    · simp [serializeLobby, maskLobbyWallet, hw]
    · have ht : t.all (fun q => jsIsString q.2.walletAddress) = false := by
        simp only [List.all_cons, hw, jsIsString, Bool.true_and] at h
        exact h
      simp [serializeLobby, maskLobbyWallet, hw, ih ht]
    · simp [serializeLobby, maskLobbyWallet, hw]
    · simp [serializeLobby, maskLobbyWallet, hw]
    · simp [serializeLobby, maskLobbyWallet, hw]

theorem serializeScores_ok_of_all :
    ∀ l : List (String × PlayerJs),
      l.all (fun q => jsIsString q.2.walletAddress) = true →
      ∃ v, serializeScores l = Except.ok v := by
  intro l
  induction l with
  | nil => exact fun _ => ⟨[], rfl⟩
  | cons q t ih =>
    intro h
    simp only [List.all_cons, Bool.and_eq_true] at h
    obtain ⟨v, hv⟩ := ih h.2
    rcases hw : q.2.walletAddress with _ | s | n | b | r
    · rw [hw] at h; simp [jsIsString] at h
    · exact ⟨{ id := q.1, wallet := s.take 6 ++ "...", score := q.2.score } :: v, by
        simp [serializeScores, hw, hv]⟩
    · rw [hw] at h; simp [jsIsString] at h
    · rw [hw] at h; simp [jsIsString] at h
    · rw [hw] at h; simp [jsIsString] at h

theorem serializeScores_error_of_not_all :
    ∀ l : List (String × PlayerJs),
      l.all (fun q => jsIsString q.2.walletAddress) = false →
      serializeScores l = Except.error JsError.typeError := by
  intro l
  induction l with
  | nil => intro h; simp at h
  | cons q t ih =>
    intro h
    rcases hw : q.2.walletAddress with _ | s | n | b | r
    · simp [serializeScores, hw]
    · have ht : t.all (fun q => jsIsString q.2.walletAddress) = false := by
        simp only [List.all_cons, hw, jsIsString, Bool.true_and] at h
        exact h
      simp [serializeScores, hw, ih ht]
    · simp [serializeScores, hw]
    · simp [serializeScores, hw]
    · simp [serializeScores, hw]

theorem addPlayerToLobbyJs_cases (cfg : Config) (now : Nat) (sid : String)
    (w : JsVal) (st : GStateJs) :
    ((addPlayerToLobbyJs cfg now sid w st).1.success = false
      ∧ (addPlayerToLobbyJs cfg now sid w st).2.1 = st
      ∧ (addPlayerToLobbyJs cfg now sid w st).2.2 = [])
    ∨ ((addPlayerToLobbyJs cfg now sid w st).1.success = true
        ∧ ((addPlayerToLobbyJs cfg now sid w st).2.1.lobby = []
            ∨ (addPlayerToLobbyJs cfg now sid w st).2.1.lobby
                = mapSet st.lobby sid { walletAddress := w, joinTime := now })) := by
  simp only [addPlayerToLobbyJs]
  split_ifs
  · exact Or.inl ⟨rfl, rfl, rfl⟩
  · exact Or.inl ⟨rfl, rfl, rfl⟩
  · exact Or.inl ⟨rfl, rfl, rfl⟩
  · exact Or.inl ⟨rfl, rfl, rfl⟩
  · exact Or.inr ⟨rfl, Or.inl rfl⟩
  · exact Or.inr ⟨rfl, Or.inr rfl⟩
  · exact Or.inr ⟨rfl, Or.inl rfl⟩
  · exact Or.inr ⟨rfl, Or.inr rfl⟩

theorem joinLobbyHandlerJs_reject_eq {cfg : Config} {now : Nat} {sid : String}
    {d : JoinPayloadJs} {st : GStateJs}
    (h : (addPlayerToLobbyJs cfg now sid d.walletAddress st).1.success = false) :
    joinLobbyHandlerJs cfg now sid (some d) st
      = { state := st,
          msgs := [{ event := "lobby_joined", target := Target.toSender }],
          thrown := none } := by
  rcases addPlayerToLobbyJs_cases cfg now sid d.walletAddress st with ⟨_, hst, hmsgs⟩ | ⟨hs, _⟩
  · simp only [joinLobbyHandlerJs]
    rw [if_neg (by simp [h]), hst, hmsgs]
    rfl
  · rw [h] at hs; cases hs

theorem joinLobbyHandlerJs_accept_iff {cfg : Config} {now : Nat} {sid : String}
    {d : JoinPayloadJs} {st : GStateJs}
    (h : (addPlayerToLobbyJs cfg now sid d.walletAddress st).1.success = true) :
    ((joinLobbyHandlerJs cfg now sid (some d) st).thrown = none
      ↔ lobbyWalletsOk (addPlayerToLobbyJs cfg now sid d.walletAddress st).2.1 = true) := by
  simp only [joinLobbyHandlerJs]
  rw [if_pos h]
  simp only [getLobbyStateJs]
  cases hall : lobbyWalletsOk (addPlayerToLobbyJs cfg now sid d.walletAddress st).2.1 with
  | false =>
    rw [serializeLobby_error_of_not_all _ hall]
    simp
  | true =>
    obtain ⟨v, hv⟩ := serializeLobby_ok_of_all _ hall
    rw [hv]
    simp

theorem joinLobbyHandlerJs_str_safe {cfg : Config} {now : Nat} {sid s : String}
    {st : GStateJs} (h : lobbyWalletsOk st = true) :
    (joinLobbyHandlerJs cfg now sid (some { walletAddress := JsVal.str s }) st).thrown
      = none := by
  by_cases hs : (addPlayerToLobbyJs cfg now sid (JsVal.str s) st).1.success = true
  · rw [joinLobbyHandlerJs_accept_iff hs]
    rcases addPlayerToLobbyJs_cases cfg now sid (JsVal.str s) st with
      ⟨hf, _, _⟩ | ⟨_, hlob | hlob⟩
    · rw [hs] at hf; cases hf
    · unfold lobbyWalletsOk
      rw [hlob]
      rfl
    · unfold lobbyWalletsOk
      rw [hlob]
      refine List.all_eq_true.mpr ?_
      intro x hx
      rcases mem_mapSet hx with hx' | hx'
      · exact List.all_eq_true.mp h x hx'
      · rw [hx']
        rfl
  · have hs' : (addPlayerToLobbyJs cfg now sid (JsVal.str s) st).1.success = false := by
      simpa using hs
    rw [joinLobbyHandlerJs_reject_eq hs']

theorem collectPennyHandlerJs_fail_eq {sid : String} {d : CollectPayload}
    {st : GStateJs} (h : (collectPennyJs sid d.pennyId st).1.success = false) :
    collectPennyHandlerJs sid (some d) st
      = { state := (collectPennyJs sid d.pennyId st).2, msgs := [], thrown := none } := by
  simp only [collectPennyHandlerJs]
  rw [if_neg (by simp [h])]

theorem collectPennyHandlerJs_success_iff {sid : String} {d : CollectPayload}
    {st : GStateJs} (h : (collectPennyJs sid d.pennyId st).1.success = true) :
    ((collectPennyHandlerJs sid (some d) st).thrown = none
      ↔ playerWalletsOk (collectPennyJs sid d.pennyId st).2 = true) := by
  simp only [collectPennyHandlerJs]
  rw [if_pos h]
  simp only [getScoresJs]
  cases hall : playerWalletsOk (collectPennyJs sid d.pennyId st).2 with
  | false =>
    rw [serializeScores_error_of_not_all _ hall]
    simp [Except.map]
  | true =>
    obtain ⟨v, hv⟩ := serializeScores_ok_of_all _ hall
    rw [hv]
    simp [Except.map]

end JsHandlerLemmas

end PennySniff
